import Mathlib

/-!
# Certificate traceability: ledger lifecycle and integrity hash

A shallow embedding of

* `src/chaincode/certificate/certificate.go` (the smart contract: create, issue,
  revoke, update and read of certificates on the ledger), namespace `Chaincode`;
* `src/backend/handlers/certificate.go` (the HTTP handlers that build the payloads
  and the integrity hash, and the query handler), namespace `Handlers`.

Modelling conventions

* The world state of the ledger is a total map from keys to the decoded value stored
  there. The contract only ever writes `json.Marshal` of a `Certificate` and reads it
  back with `json.Unmarshal`, so a stored value is kept as the `Certificate` itself.
  Transport and endorsement failures of the ledger stub are outside the contract code
  and are not modelled: `GetState` and `PutState` do not fail.
* A JSON argument is represented by what `json.Unmarshal` makes of it on a zero-valued
  struct: the decoding error, or the decoded struct (keys the document leaves out are
  at their Go zero value).
* Every call of `time.Now()` is a separate argument, in the order of the calls.
* A Go `error` is `Option String`: `none` is `nil`, `some msg` carries the message.
* Go strings are taken to be Unicode text, which JSON encoding and decoding preserve.
-/

/-! ## Data model -/

/-- A `float64` that came out of a JSON number: the finite value
`(-1)^neg * mant * 2^exp`. JSON has no notation for NaN or the infinities, so the
decoded structs never hold them. -/
structure Float64 where
  neg : Bool
  mant : Nat
  exp : Int
  deriving DecidableEq, Repr

/-- Go struct `TestDataItem`. -/
structure TestDataItem where
  Parameter : String
  MeasuredValue : Float64
  Unit : String
  Uncertainty : Float64
  Method : String
  Equipment : String
  deriving DecidableEq, Repr

/-- Go struct `TraceRecord`. -/
structure TraceRecord where
  Timestamp : String
  Action : String
  Operator : String
  Details : String
  deriving DecidableEq, Repr

/-- Go struct `Certificate`; the chaincode and `models` declare it with the same fields
and the same JSON keys. -/
structure Certificate where
  ID : String
  CertificateNo : String
  TestUnit : String
  TestDate : String
  TestData : List TestDataItem
  InspectionOrg : String
  Inspector : String
  Status : String
  IssuedDate : String
  ValidUntil : String
  Hash : String
  CreatedBy : String
  CreatedAt : String
  UpdatedAt : String
  TraceHistory : List TraceRecord
  deriving DecidableEq, Repr

/-- The zero value of `Certificate` (`var cert Certificate`). -/
def Certificate.zero : Certificate :=
  { ID := "", CertificateNo := "", TestUnit := "", TestDate := "", TestData := [],
    InspectionOrg := "", Inspector := "", Status := "", IssuedDate := "", ValidUntil := "",
    Hash := "", CreatedBy := "", CreatedAt := "", UpdatedAt := "", TraceHistory := [] }

/-! ## `time.Now().Format(time.RFC3339)` -/

/-- A wall-clock reading as `time.Now()` returns it: the civil date and time in the
local zone, and the zone offset east of UTC in seconds. -/
structure Time where
  year : Nat
  month : Nat
  day : Nat
  hour : Nat
  minute : Nat
  second : Nat
  offset : Int
  deriving DecidableEq, Repr

/-- Decimal digits of `x`, most significant first, produced by at most `fuel` divisions. -/
def decDigits : Nat → Nat → List Char
  | 0, _ => []
  | fuel + 1, x =>
    if x < 10 then [Char.ofNat (48 + x)]
    else decDigits fuel (x / 10) ++ [Char.ofNat (48 + x % 10)]

/-- Decimal text of a natural number (`strconv.Itoa` on a non-negative value). -/
def itoa (x : Nat) : String := String.mk (decDigits (x + 1) x)

/-- Go's `appendInt(b, x, width)` for `x ≥ 0`: decimal, zero-padded to `width`. -/
def appendInt (x width : Nat) : String :=
  let s := itoa x
  String.mk (List.replicate (width - s.length) '0') ++ s

/-- Layout element `Z07:00` of RFC 3339: `Z` for offset 0, else sign, hours, minutes. -/
def formatZone (offset : Int) : String :=
  if offset = 0 then "Z"
  else
    let zone := offset.natAbs / 60
    (if offset < 0 ∧ zone ≠ 0 then "-" else "+") ++ appendInt (zone / 60) 2 ++ ":"
      ++ appendInt (zone % 60) 2

/-- The text of `t.Format(time.RFC3339)`, layout `2006-01-02T15:04:05Z07:00`. -/
def Time.Format (t : Time) : String :=
  appendInt t.year 4 ++ "-" ++ appendInt t.month 2 ++ "-" ++ appendInt t.day 2 ++ "T"
    ++ appendInt t.hour 2 ++ ":" ++ appendInt t.minute 2 ++ ":" ++ appendInt t.second 2
    ++ formatZone t.offset

/-! ## The smart contract (`src/chaincode/certificate/certificate.go`) -/

/-- World state of the ledger: what `GetState` returns for each key. -/
abbrev WorldState := String → Option Certificate

/-- The ledger with no key written. -/
def WorldState.empty : WorldState := fun _ => none

/-- Result of `stub.PutState(id, json.Marshal(cert))`. -/
def PutState (ctx : WorldState) (id : String) (cert : Certificate) : WorldState :=
  fun key => if key = id then some cert else ctx key

/-- A JSON argument as `json.Unmarshal` sees it: the decoding error or the decoded struct. -/
abbrev JSONData := Except String Certificate

namespace Chaincode

/-- Method `SmartContract.CertificateExists`: whether the key holds a value. -/
def CertificateExists (ctx : WorldState) (id : String) : Bool :=
  (ctx id).isSome

/-- Method `SmartContract.ReadCertificate`: the stored certificate, or the not-found error. -/
def ReadCertificate (ctx : WorldState) (id : String) : Except String Certificate :=
  match ctx id with
  | none => .error ("certificate " ++ id ++ " does not exist")
  | some cert => .ok cert

/-- Method `SmartContract.CreateCertificate`. `t1`, `t2`, `t3` are the three clock readings
(`CreatedAt`, `UpdatedAt`, trace timestamp). Returns the Go error and the world state
after the call. -/
def CreateCertificate (ctx : WorldState) (id : String) (certificateData : JSONData)
    (t1 t2 t3 : Time) : Option String × WorldState :=
  if CertificateExists ctx id then
    (some ("certificate " ++ id ++ " already exists"), ctx)
  else
    match certificateData with
    | .error e => (some ("failed to unmarshal certificate data: " ++ e), ctx)
    | .ok cert =>
      let cert := { cert with
        ID := id, Status := "draft", CreatedAt := t1.Format, UpdatedAt := t2.Format }
      let traceRecord : TraceRecord :=
        { Timestamp := t3.Format, Action := "CREATED", Operator := cert.CreatedBy,
          Details := "Certificate created" }
      let cert := { cert with TraceHistory := cert.TraceHistory ++ [traceRecord] }
      (none, PutState ctx id cert)

/-- Method `SmartContract.IssueCertificate`. `t1`, `t2`, `t3` are the clock readings for
`IssuedDate`, `UpdatedAt` and the trace timestamp. -/
def IssueCertificate (ctx : WorldState) (id : String) (operator : String)
    (t1 t2 t3 : Time) : Option String × WorldState :=
  match ReadCertificate ctx id with
  | .error e => (some e, ctx)
  | .ok cert =>
    if cert.Status ≠ "draft" then
      (some ("certificate " ++ id ++ " is not in draft status"), ctx)
    else
      let cert := { cert with
        Status := "issued", IssuedDate := t1.Format, UpdatedAt := t2.Format }
      let traceRecord : TraceRecord :=
        { Timestamp := t3.Format, Action := "ISSUED", Operator := operator,
          Details := "Certificate issued" }
      let cert := { cert with TraceHistory := cert.TraceHistory ++ [traceRecord] }
      (none, PutState ctx id cert)

/-- Method `SmartContract.RevokeCertificate`. `t1`, `t2` are the clock readings for `UpdatedAt`
and the trace timestamp. -/
def RevokeCertificate (ctx : WorldState) (id : String) (operator reason : String)
    (t1 t2 : Time) : Option String × WorldState :=
  match ReadCertificate ctx id with
  | .error e => (some e, ctx)
  | .ok cert =>
    if cert.Status = "revoked" then
      (some ("certificate " ++ id ++ " is already revoked"), ctx)
    else
      let cert := { cert with Status := "revoked", UpdatedAt := t1.Format }
      let traceRecord : TraceRecord :=
        { Timestamp := t2.Format, Action := "REVOKED", Operator := operator,
          Details := "Certificate revoked. Reason: " ++ reason }
      let cert := { cert with TraceHistory := cert.TraceHistory ++ [traceRecord] }
      (none, PutState ctx id cert)

/-- Method `SmartContract.UpdateCertificate`. `t1`, `t2` are the clock readings for `UpdatedAt`
and the trace timestamp. -/
def UpdateCertificate (ctx : WorldState) (id : String) (certificateData : JSONData)
    (operator : String) (t1 t2 : Time) : Option String × WorldState :=
  match ReadCertificate ctx id with
  | .error e => (some e, ctx)
  | .ok cert =>
    if cert.Status ≠ "draft" then
      (some ("cannot update certificate " ++ id
        ++ ": only draft certificates can be updated"), ctx)
    else
      match certificateData with
      | .error e => (some ("failed to unmarshal certificate data: " ++ e), ctx)
      | .ok updatedCert =>
        let updatedCert := { updatedCert with
          ID := cert.ID, Status := cert.Status, CreatedBy := cert.CreatedBy,
          CreatedAt := cert.CreatedAt, UpdatedAt := t1.Format,
          TraceHistory := cert.TraceHistory }
        let traceRecord : TraceRecord :=
          { Timestamp := t2.Format, Action := "UPDATED", Operator := operator,
            Details := "Certificate updated" }
        let updatedCert := { updatedCert with
          TraceHistory := updatedCert.TraceHistory ++ [traceRecord] }
        (none, PutState ctx id updatedCert)

end Chaincode

/-! ## `crypto/sha256` and the `%f`, `%x` verbs of `fmt` -/

namespace SHA256

/-- The first 64 primes. -/
def primes : List Nat :=
  [2, 3, 5, 7, 11, 13, 17, 19, 23, 29, 31, 37, 41, 43, 47, 53, 59, 61, 67, 71, 73, 79, 83,
   89, 97, 101, 103, 107, 109, 113, 127, 131, 137, 139, 149, 151, 157, 163, 167, 173, 179,
   181, 191, 193, 197, 199, 211, 223, 227, 229, 233, 239, 241, 251, 257, 263, 269, 271,
   277, 281, 283, 293, 307, 311]

/-- Integer `e`-th root of `n < 2^(36 e)`, built bit by bit from the top. -/
def iroot (e n : Nat) : Nat :=
  (List.range 36).foldl
    (fun r i => if (r + 2 ^ (35 - i)) ^ e ≤ n then r + 2 ^ (35 - i) else r) 0

/-- Round constants of SHA-256: the first 32 bits of the fractional parts of the cube
roots of the first 64 primes (FIPS 180-4, section 4.2.2). -/
def K : List Nat := primes.map (fun p => iroot 3 (p * 2 ^ 96) % 4294967296)

/-- Initial hash value of SHA-256: the first 32 bits of the fractional parts of the
square roots of the first 8 primes (FIPS 180-4, section 5.3.3). -/
def H0 : List Nat := (primes.take 8).map (fun p => iroot 2 (p * 2 ^ 64) % 4294967296)

/-- Rotate a 32-bit word right by `n` bits. -/
def rotr (x n : Nat) : Nat := ((x >>> n) ||| (x <<< (32 - n))) % 4294967296

/-- Addition modulo `2^32`. -/
def add32 (a b : Nat) : Nat := (a + b) % 4294967296

/-- The choice function `Ch`. -/
def ch (x y z : Nat) : Nat := (x &&& y) ^^^ ((x ^^^ 4294967295) &&& z)

/-- The majority function `Maj`. -/
def maj (x y z : Nat) : Nat := (x &&& y) ^^^ (x &&& z) ^^^ (y &&& z)

/-- The function `Σ0`. -/
def bsig0 (x : Nat) : Nat := rotr x 2 ^^^ rotr x 13 ^^^ rotr x 22

/-- The function `Σ1`. -/
def bsig1 (x : Nat) : Nat := rotr x 6 ^^^ rotr x 11 ^^^ rotr x 25

/-- The function `σ0`. -/
def ssig0 (x : Nat) : Nat := rotr x 7 ^^^ rotr x 18 ^^^ (x >>> 3)

/-- The function `σ1`. -/
def ssig1 (x : Nat) : Nat := rotr x 17 ^^^ rotr x 19 ^^^ (x >>> 10)

/-- Message padding: 0x80, zeros up to 56 mod 64, then the bit length on 8 bytes. -/
def pad (msg : List Nat) : List Nat :=
  let n := msg.length
  msg ++ [128] ++ List.replicate ((119 - n % 64) % 64) 0
    ++ (List.range 8).map (fun i => (8 * n) >>> (8 * (7 - i)) % 256)

/-- Big-endian 32-bit words of a byte list. -/
def toWords : Nat → List Nat → List Nat
  | 0, _ => []
  | fuel + 1, b0 :: b1 :: b2 :: b3 :: rest =>
    (b0 * 16777216 + b1 * 65536 + b2 * 256 + b3) :: toWords fuel rest
  | _ + 1, _ => []

/-- The 64-word message schedule of one block, last word first. -/
def scheduleRev : Nat → List Nat → List Nat
  | 0, w => w
  | n + 1, w =>
    scheduleRev n (add32 (add32 (ssig1 (w.getD 1 0)) (w.getD 6 0))
      (add32 (ssig0 (w.getD 14 0)) (w.getD 15 0)) :: w)

/-- One round of the compression function on the working variables `a..h`. -/
def round (s : List Nat) (kw : Nat × Nat) : List Nat :=
  match s with
  | [a, b, c, d, e, f, g, h] =>
    let t1 := add32 (add32 (add32 h (bsig1 e)) (add32 (ch e f g) kw.1)) kw.2
    let t2 := add32 (bsig0 a) (maj a b c)
    [add32 t1 t2, a, b, c, add32 d t1, e, f, g]
  | _ => s

/-- Compression of one 16-word block into the chaining value. -/
def compress (hs : List Nat) (block : List Nat) : List Nat :=
  let w := (scheduleRev 48 block.reverse).reverse
  List.zipWith add32 hs ((K.zip w).foldl round hs)

/-- Fold the compression function over the blocks of the padded message. -/
def blocks : Nat → List Nat → List Nat → List Nat
  | 0, hs, _ => hs
  | fuel + 1, hs, ws =>
    if ws.length < 16 then hs else blocks fuel (compress hs (ws.take 16)) (ws.drop 16)

/-- Lower-case hexadecimal digit. -/
def hexDigit (n : Nat) : Char :=
  if n < 10 then Char.ofNat (48 + n) else Char.ofNat (87 + n)

/-- Lower-case hexadecimal text of a 32-bit word, 8 digits. -/
def hexWord (w : Nat) : List Char :=
  (List.range 8).map (fun i => hexDigit (w >>> (4 * (7 - i)) % 16))

/-- UTF-8 bytes of one character. -/
def utf8 (c : Char) : List Nat :=
  let n := c.toNat
  if n < 128 then [n]
  else if n < 2048 then [192 + n / 64, 128 + n % 64]
  else if n < 65536 then [224 + n / 4096, 128 + n / 64 % 64, 128 + n % 64]
  else [240 + n / 262144, 128 + n / 4096 % 64, 128 + n / 64 % 64, 128 + n % 64]

/-- The digest of the bytes, as eight 32-bit words. -/
def sum256 (msg : List Nat) : List Nat :=
  let p := pad msg
  blocks (p.length / 64) H0 (toWords (p.length / 4) p)

end SHA256

/-- The text of `fmt.Sprintf("%x", sha256.Sum256([]byte(data)))`. -/
def sha256Hex (data : String) : String :=
  String.mk ((SHA256.sum256 (data.data.flatMap SHA256.utf8)).flatMap SHA256.hexWord)

/-- The text `fmt.Sprintf("%f", x)` prints for a finite double: sign, then the exact
value rounded to six decimals (ties to even, as `strconv` rounds), integer part, point,
six digits. -/
def Float64.formatF (x : Float64) : String :=
  let num := x.mant * 1000000
  let q :=
    if 0 ≤ x.exp then num * 2 ^ x.exp.toNat
    else
      let d := 2 ^ (-x.exp).toNat
      if 2 * (num % d) > d ∨ (2 * (num % d) = d ∧ num / d % 2 = 1) then num / d + 1
      else num / d
  (if x.neg then "-" else "") ++ itoa (q / 1000000) ++ "." ++ appendInt (q % 1000000) 6

/-! ## The HTTP handlers (`src/backend/handlers/certificate.go`) -/

namespace Handlers

/-- Go struct `models.CreateCertificateRequest`. -/
structure CreateCertificateRequest where
  CertificateNo : String
  TestUnit : String
  TestDate : String
  TestData : List TestDataItem
  InspectionOrg : String
  Inspector : String
  ValidUntil : String
  CreatedBy : String
  deriving DecidableEq, Repr

/-- Go struct `models.UpdateCertificateRequest`. -/
structure UpdateCertificateRequest where
  CertificateNo : String
  TestUnit : String
  TestDate : String
  TestData : List TestDataItem
  InspectionOrg : String
  Inspector : String
  ValidUntil : String
  Operator : String
  deriving DecidableEq, Repr

/-- The loop `for _, testData := range ... { data += fmt.Sprintf("%s%f%s%f%s%s", ...) }`
shared by both hash functions, started from the text `data` built so far. -/
def appendTestData (data : String) (items : List TestDataItem) : String :=
  items.foldl (fun data testData =>
    data ++ (testData.Parameter ++ testData.MeasuredValue.formatF ++ testData.Unit
      ++ testData.Uncertainty.formatF ++ testData.Method ++ testData.Equipment)) data

/-- Method `CertificateHandler.generateCertificateHash`; `now` is its `time.Now()`. -/
def generateCertificateHash (req : CreateCertificateRequest) (now : Time) : String :=
  let data := req.CertificateNo ++ req.TestUnit ++ req.TestDate ++ req.InspectionOrg
    ++ req.Inspector ++ req.ValidUntil ++ now.Format
  sha256Hex (appendTestData data req.TestData)

/-- Method `CertificateHandler.generateCertificateHashFromCert`. -/
def generateCertificateHashFromCert (cert : Certificate) : String :=
  let data := cert.CertificateNo ++ cert.TestUnit ++ cert.TestDate ++ cert.InspectionOrg
    ++ cert.Inspector ++ cert.ValidUntil ++ cert.CreatedAt
  sha256Hex (appendTestData data cert.TestData)

/-- Method `CertificateHandler.CreateCertificate`. `req` is what `ShouldBindJSON` made of the
body, `certificateID` the fresh UUID, `now` the clock reading of the handler (inside
`generateCertificateHash`), `t1 t2 t3` those of the contract. Returns the HTTP status
and the ledger after the request. -/
def CreateCertificate (ctx : WorldState) (req : Except String CreateCertificateRequest)
    (certificateID : String) (now t1 t2 t3 : Time) : Nat × WorldState :=
  match req with
  | .error _ => (400, ctx)
  | .ok req =>
    let cert : Certificate :=
      { Certificate.zero with
        ID := certificateID, CertificateNo := req.CertificateNo, TestUnit := req.TestUnit,
        TestDate := req.TestDate, TestData := req.TestData,
        InspectionOrg := req.InspectionOrg, Inspector := req.Inspector,
        ValidUntil := req.ValidUntil, CreatedBy := req.CreatedBy,
        Hash := generateCertificateHash req now }
    match Chaincode.CreateCertificate ctx certificateID (.ok cert) t1 t2 t3 with
    | (some _, ctx') => (500, ctx')
    | (none, ctx') => (201, ctx')

/-- The merge step of `CertificateHandler.UpdateCertificate`: the seven statements
`if req.X != "" { existingCert.X = req.X }` (`len(req.TestData) > 0` for the test
data) in source order, then `existingCert.Hash = generateCertificateHashFromCert(...)`. -/
def mergeRequest (existingCert : Certificate) (req : UpdateCertificateRequest) :
    Certificate :=
  let existingCert := if req.CertificateNo ≠ "" then
    { existingCert with CertificateNo := req.CertificateNo } else existingCert
  let existingCert := if req.TestUnit ≠ "" then
    { existingCert with TestUnit := req.TestUnit } else existingCert
  let existingCert := if req.TestDate ≠ "" then
    { existingCert with TestDate := req.TestDate } else existingCert
  let existingCert := if req.TestData.length > 0 then
    { existingCert with TestData := req.TestData } else existingCert
  let existingCert := if req.InspectionOrg ≠ "" then
    { existingCert with InspectionOrg := req.InspectionOrg } else existingCert
  let existingCert := if req.Inspector ≠ "" then
    { existingCert with Inspector := req.Inspector } else existingCert
  let existingCert := if req.ValidUntil ≠ "" then
    { existingCert with ValidUntil := req.ValidUntil } else existingCert
  { existingCert with Hash := generateCertificateHashFromCert existingCert }

/-- Field-wise description of the merge, as the specification words it: a request field
replaces the existing one only when it is non-empty. Compared with `mergeRequest`, the
translation of the code, in `mergeRequest_eq`. -/
def mergeSpec (c : Certificate) (req : UpdateCertificateRequest) : Certificate :=
  { c with
    CertificateNo := if req.CertificateNo ≠ "" then req.CertificateNo else c.CertificateNo
    TestUnit := if req.TestUnit ≠ "" then req.TestUnit else c.TestUnit
    TestDate := if req.TestDate ≠ "" then req.TestDate else c.TestDate
    TestData := if req.TestData.length > 0 then req.TestData else c.TestData
    InspectionOrg := if req.InspectionOrg ≠ "" then req.InspectionOrg else c.InspectionOrg
    Inspector := if req.Inspector ≠ "" then req.Inspector else c.Inspector
    ValidUntil := if req.ValidUntil ≠ "" then req.ValidUntil else c.ValidUntil }

/-- Method `CertificateHandler.UpdateCertificate`. `t1 t2` are the clock readings of the
contract. Returns the HTTP status and the ledger after the request. -/
def UpdateCertificate (ctx : WorldState) (id : String)
    (req : Except String UpdateCertificateRequest) (t1 t2 : Time) : Nat × WorldState :=
  match req with
  | .error _ => (400, ctx)
  | .ok req =>
    match Chaincode.ReadCertificate ctx id with
    | .error _ => (404, ctx)
    | .ok existingCert =>
      let existingCert := mergeRequest existingCert req
      match Chaincode.UpdateCertificate ctx id (.ok existingCert) req.Operator t1 t2 with
      | (some _, ctx') => (500, ctx')
      | (none, ctx') => (200, ctx')

/-- Method `CertificateHandler.IssueCertificate`; `operator` is the bound request's field. -/
def IssueCertificate (ctx : WorldState) (id : String) (operator : Except String String)
    (t1 t2 t3 : Time) : Nat × WorldState :=
  match operator with
  | .error _ => (400, ctx)
  | .ok operator =>
    match Chaincode.IssueCertificate ctx id operator t1 t2 t3 with
    | (some _, ctx') => (500, ctx')
    | (none, ctx') => (200, ctx')

/-- Method `CertificateHandler.RevokeCertificate`; `req` is the bound operator and reason. -/
def RevokeCertificate (ctx : WorldState) (id : String)
    (req : Except String (String × String)) (t1 t2 : Time) : Nat × WorldState :=
  match req with
  | .error _ => (400, ctx)
  | .ok (operator, reason) =>
    match Chaincode.RevokeCertificate ctx id operator reason t1 t2 with
    | (some _, ctx') => (500, ctx')
    | (none, ctx') => (200, ctx')

end Handlers

/-! ## The read side: queries of the contract and of the handler -/

/-- The read side of the ledger stub: the key/value pairs of the world state in key
order, and the rich-query engine of the state database, which answers a selector
document with the matching pairs. The engine is outside the repository and is taken
as given. -/
structure QueryStub where
  state : List (String × Certificate)
  GetQueryResult : String → List (String × Certificate)

/-- Stub call `GetStateByRange(startKey, endKey)`: the pairs with
`startKey ≤ key < endKey`, an empty bound being no bound. -/
def QueryStub.GetStateByRange (stub : QueryStub) (startKey endKey : String) :
    List (String × Certificate) :=
  stub.state.filter (fun kv =>
    (startKey = "" || decide (startKey ≤ kv.1)) && (endKey = "" || decide (kv.1 < endKey)))

namespace Chaincode

/-- Method `SmartContract.getQueryResultForQueryString`: the decoded values of the
query result, in iterator order. -/
def getQueryResultForQueryString (stub : QueryStub) (queryString : String) :
    List Certificate :=
  (stub.GetQueryResult queryString).foldl
    (fun certificates queryResponse => certificates ++ [queryResponse.2]) []

/-- Method `SmartContract.QueryCertificatesByTestUnit`. -/
def QueryCertificatesByTestUnit (stub : QueryStub) (testUnit : String) : List Certificate :=
  getQueryResultForQueryString stub
    ("\x7b\"selector\":\x7b\"testUnit\":\"" ++ testUnit ++ "\"\x7d\x7d")

/-- Method `SmartContract.QueryCertificatesByStatus`. -/
def QueryCertificatesByStatus (stub : QueryStub) (status : String) : List Certificate :=
  getQueryResultForQueryString stub
    ("\x7b\"selector\":\x7b\"status\":\"" ++ status ++ "\"\x7d\x7d")

/-- Method `SmartContract.QueryCertificatesByInspectionOrg`. -/
def QueryCertificatesByInspectionOrg (stub : QueryStub) (inspectionOrg : String) :
    List Certificate :=
  getQueryResultForQueryString stub
    ("\x7b\"selector\":\x7b\"inspectionOrg\":\"" ++ inspectionOrg ++ "\"\x7d\x7d")

/-- Method `SmartContract.GetAllCertificates`: the decoded values of
`GetStateByRange("", "")`, in iterator order. -/
def GetAllCertificates (stub : QueryStub) : List Certificate :=
  (stub.GetStateByRange "" "").foldl
    (fun certificates queryResponse => certificates ++ [queryResponse.2]) []

end Chaincode

/-- What evaluating a transaction on the gateway's contract gives back: the error, or
the returned bytes, kept as what `json.Unmarshal` into `[]models.Certificate` makes of
them (the decoding error or the decoded list). -/
abbrev Evaluate := String → List String → Except String (Except String (List Certificate))

/-- The gateway wired to the contract: the contract API routes the transaction name to
the method of that name and serialises its result. -/
def evaluateOnLedger (stub : QueryStub) : Evaluate := fun name args =>
  if name = "QueryCertificatesByTestUnit" then
    match args with
    | [testUnit] => .ok (.ok (Chaincode.QueryCertificatesByTestUnit stub testUnit))
    | _ => .error "incorrect number of params"
  else if name = "QueryCertificatesByStatus" then
    match args with
    | [status] => .ok (.ok (Chaincode.QueryCertificatesByStatus stub status))
    | _ => .error "incorrect number of params"
  else if name = "QueryCertificatesByInspectionOrg" then
    match args with
    | [inspectionOrg] =>
      .ok (.ok (Chaincode.QueryCertificatesByInspectionOrg stub inspectionOrg))
    | _ => .error "incorrect number of params"
  else if name = "GetAllCertificates" then
    match args with
    | [] => .ok (.ok (Chaincode.GetAllCertificates stub))
    | _ => .error "incorrect number of params"
  else .error ("function " ++ name ++ " not found")

/-- Go struct `fabric.FabricClient` (`src/backend/fabric/client.go`) as the handlers use
it: `contract` is the gateway's contract, `evaluated` the transactions that have been
sent to it for evaluation, oldest first. -/
structure FabricClient where
  contract : Evaluate
  evaluated : List (String × List String)

/-- Method `FabricClient.EvaluateTransaction`: sends name and arguments to the contract,
which is the one place where `evaluated` grows, and wraps a contract error. Returns the
Go result and the client after the call. -/
def FabricClient.EvaluateTransaction (fc : FabricClient) (name : String)
    (args : List String) : Except String (Except String (List Certificate)) × FabricClient :=
  let sent : FabricClient := { fc with evaluated := fc.evaluated ++ [(name, args)] }
  match fc.contract name args with
  | .error err => (.error ("failed to evaluate transaction " ++ name ++ ": " ++ err), sent)
  | .ok result => (.ok result, sent)

namespace Handlers

/-- Go struct `models.QueryCertificatesRequest`. -/
structure QueryCertificatesRequest where
  TestUnit : String
  Status : String
  InspectionOrg : String
  deriving DecidableEq, Repr

/-- What a run of `QueryCertificates` leaves: the fabric client after it, the HTTP
status, and the certificates in a 200 body. -/
structure QueryOutcome where
  fabricClient : FabricClient
  status : Nat
  certificates : List Certificate

/-- Method `CertificateHandler.QueryCertificates`. `req` is what `ShouldBindQuery` made of
the query string. The `if` chain calls `h.fabricClient.EvaluateTransaction` in one of its
four branches; the result is decoded and answered with 200, an error with 500. -/
def QueryCertificates (fabricClient : FabricClient)
    (req : Except String QueryCertificatesRequest) : QueryOutcome :=
  match req with
  | .error _ => { fabricClient := fabricClient, status := 400, certificates := [] }
  | .ok req =>
    let (result, fabricClient) :=
      if req.TestUnit ≠ "" then
        fabricClient.EvaluateTransaction "QueryCertificatesByTestUnit" [req.TestUnit]
      else if req.Status ≠ "" then
        fabricClient.EvaluateTransaction "QueryCertificatesByStatus" [req.Status]
      else if req.InspectionOrg ≠ "" then
        fabricClient.EvaluateTransaction "QueryCertificatesByInspectionOrg"
          [req.InspectionOrg]
      else
        fabricClient.EvaluateTransaction "GetAllCertificates" []
    match result with
    | .error _ => { fabricClient := fabricClient, status := 500, certificates := [] }
    | .ok (.error _) => { fabricClient := fabricClient, status := 500, certificates := [] }
    | .ok (.ok certificates) =>
      { fabricClient := fabricClient, status := 200, certificates := certificates }

/-- The text `data` that `generateCertificateHashFromCert` hands to `sha256.Sum256`. -/
def hashInputFromCert (cert : Certificate) : String :=
  let data := cert.CertificateNo ++ cert.TestUnit ++ cert.TestDate ++ cert.InspectionOrg
    ++ cert.Inspector ++ cert.ValidUntil ++ cert.CreatedAt
  appendTestData data cert.TestData

end Handlers

/-! ## Calls as data -/

/-- One invocation of a state-changing contract function, with all its arguments. -/
inductive Op where
  | create (id : String) (certificateData : JSONData) (t1 t2 t3 : Time)
  | update (id : String) (certificateData : JSONData) (operator : String) (t1 t2 : Time)
  | issue (id : String) (operator : String) (t1 t2 t3 : Time)
  | revoke (id : String) (operator reason : String) (t1 t2 : Time)

/-- Run the invocation on a world state. -/
def Op.apply : Op → WorldState → Option String × WorldState
  | .create id d t1 t2 t3, ctx => Chaincode.CreateCertificate ctx id d t1 t2 t3
  | .update id d operator t1 t2, ctx => Chaincode.UpdateCertificate ctx id d operator t1 t2
  | .issue id operator t1 t2 t3, ctx => Chaincode.IssueCertificate ctx id operator t1 t2 t3
  | .revoke id operator reason t1 t2, ctx =>
    Chaincode.RevokeCertificate ctx id operator reason t1 t2

/-- The key the invocation addresses. -/
def Op.key : Op → String
  | .create id _ _ _ _ => id
  | .update id _ _ _ _ => id
  | .issue id _ _ _ _ => id
  | .revoke id _ _ _ _ => id

/-- The action tag the invocation writes into the trace history when it succeeds. -/
def Op.tag : Op → String
  | .create .. => "CREATED"
  | .update .. => "UPDATED"
  | .issue .. => "ISSUED"
  | .revoke .. => "REVOKED"

/-- Run invocations one after the other; `none` as soon as one of them returns an
error, else the world state after the last one. -/
def runAll : List Op → WorldState → Option WorldState
  | [], ctx => some ctx
  | op :: ops, ctx =>
    match op.apply ctx with
    | (none, ctx') => runAll ops ctx'
    | (some _, _) => none

/-- Run invocations one after the other whatever they return: a call that returns an
error hands back the world state unchanged and the run goes on. -/
def execAll : List Op → WorldState → WorldState
  | [], ctx => ctx
  | op :: ops, ctx => execAll ops (op.apply ctx).2

/-- Every record of a world state has one of the three statuses. -/
def StatusOK (ctx : WorldState) : Prop :=
  ∀ k c, ctx k = some c → c.Status = "draft" ∨ c.Status = "issued" ∨ c.Status = "revoked"

/-! ## Fixtures: the end-to-end scenario of the specification -/

/-- Clock reading 2025-03-01 10:00:00 UTC. -/
def clock0 : Time := ⟨2025, 3, 1, 10, 0, 0, 0⟩

/-- Clock reading one second after `clock0`. -/
def clock1 : Time := ⟨2025, 3, 1, 10, 0, 1, 0⟩

/-- The test-data item of scenario 1: pH 7.0 with uncertainty 0.1
(`0.1` is the double `0x1999999999999A * 2^-56`). -/
def phItem : TestDataItem :=
  { Parameter := "pH", MeasuredValue := ⟨false, 7, 0⟩, Unit := "",
    Uncertainty := ⟨false, 7205759403792794, -56⟩, Method := "m1", Equipment := "e1" }

/-- The decoded create payload of scenario 1. -/
def scenarioCert : Certificate :=
  { Certificate.zero with
    CertificateNo := "C-1", TestUnit := "LabA", TestData := [phItem],
    InspectionOrg := "OrgX", Inspector := "Bob", ValidUntil := "2026-01-01",
    CreatedBy := "alice" }

/-- The ledger after scenario 1: `scenarioCert` created under key `cert-1`. -/
def ledger1 : WorldState :=
  (Chaincode.CreateCertificate WorldState.empty "cert-1" (.ok scenarioCert)
    clock0 clock0 clock0).2

/-- The record scenario 1 stores under `cert-1`. -/
def draft1 : Certificate :=
  { scenarioCert with
    ID := "cert-1", Status := "draft", CreatedAt := "2025-03-01T10:00:00Z",
    UpdatedAt := "2025-03-01T10:00:00Z",
    TraceHistory := [⟨"2025-03-01T10:00:00Z", "CREATED", "alice", "Certificate created"⟩] }

/-- The record scenario 2 stores under `cert-1`. -/
def issued2 : Certificate :=
  { draft1 with
    Status := "issued", IssuedDate := "2025-03-01T10:00:01Z",
    UpdatedAt := "2025-03-01T10:00:01Z",
    TraceHistory := draft1.TraceHistory ++
      [⟨"2025-03-01T10:00:01Z", "ISSUED", "carol", "Certificate issued"⟩] }

/-- The ledger after scenario 2: the certificate issued by carol. -/
def ledger2 : WorldState :=
  (Chaincode.IssueCertificate ledger1 "cert-1" "carol" clock1 clock1 clock1).2

/-- The ledger after scenario 4: the issued certificate revoked by dave. -/
def ledger4 : WorldState :=
  (Chaincode.RevokeCertificate ledger2 "cert-1" "dave" "expired" clock1 clock1).2

/-- The create request of scenario 1 as the handler binds it. -/
def scenarioRequest : Handlers.CreateCertificateRequest :=
  { CertificateNo := "C-1", TestUnit := "LabA", TestDate := "2025-02-28",
    TestData := [phItem], InspectionOrg := "OrgX", Inspector := "Bob",
    ValidUntil := "2026-01-01", CreatedBy := "alice" }

/-- An update payload that names a new test unit and nothing else. -/
def sparsePayload : Certificate :=
  { Certificate.zero with TestUnit := "LabB" }

/-- The update request with the same content as `sparsePayload`. -/
def sparseRequest : Handlers.UpdateCertificateRequest :=
  { CertificateNo := "", TestUnit := "LabB", TestDate := "", TestData := [],
    InspectionOrg := "", Inspector := "", ValidUntil := "", Operator := "carol" }

/-- A trace record written by nobody: it claims an issuance in 2020. -/
def forgedRecord : TraceRecord :=
  { Timestamp := "2020-01-01T00:00:00Z", Action := "ISSUED", Operator := "mallory",
    Details := "Certificate issued" }

/-- A decoded create payload whose JSON carries a `traceHistory` array of its own. -/
def forgedCert : Certificate :=
  { scenarioCert with TraceHistory := [forgedRecord] }

/-- An update payload that tries to overwrite the metadata as well. -/
def intrudingPayload : Certificate :=
  { sparsePayload with
    ID := "other", Status := "issued", CreatedBy := "mallory",
    CreatedAt := "1999-01-01T00:00:00Z", TraceHistory := [forgedRecord] }

/-- A run on the empty ledger: a create whose payload claims status `issued`, then an
update with the same payload. -/
def intrudingRun : List Op :=
  [Op.create "cert-1" (.ok intrudingPayload) clock0 clock0 clock0,
   Op.update "cert-1" (.ok intrudingPayload) "carol" clock1 clock1]

/-- The selector document of an equality query on one field. -/
def equalitySelector (field value : String) : String :=
  "\x7b\"selector\":\x7b\"" ++ field ++ "\":\"" ++ value ++ "\"\x7d\x7d"

/-- A query engine for fixtures: a pair matches a query string that is the equality
selector of its own test unit, status or inspection organisation. -/
def equalityEngine (state : List (String × Certificate)) (queryString : String) :
    List (String × Certificate) :=
  state.filter (fun kv =>
    decide (queryString = equalitySelector "testUnit" kv.2.TestUnit) ||
    decide (queryString = equalitySelector "status" kv.2.Status) ||
    decide (queryString = equalitySelector "inspectionOrg" kv.2.InspectionOrg))

/-- A draft of test unit `LabA` inspected by `OrgY`, stored under `cert-2`. -/
def draftOrgY : Certificate :=
  { draft1 with ID := "cert-2", InspectionOrg := "OrgY" }

/-- A draft of test unit `LabB` inspected by `OrgX`, stored under `cert-3`. -/
def draftLabB : Certificate :=
  { draft1 with ID := "cert-3", TestUnit := "LabB" }

/-- A read stub over three certificates: the issued one of scenario 2 (`LabA`, `OrgX`)
and the two drafts above, with the equality engine. -/
def scenarioStub : QueryStub :=
  { state := [("cert-1", issued2), ("cert-2", draftOrgY), ("cert-3", draftLabB)]
    GetQueryResult :=
      equalityEngine [("cert-1", issued2), ("cert-2", draftOrgY), ("cert-3", draftLabB)] }

/-- A fabric client on the contract over `scenarioStub` that has evaluated nothing yet. -/
def scenarioClient : FabricClient :=
  { contract := evaluateOnLedger scenarioStub, evaluated := [] }

/-- A certificate with certificate number `AB` and test unit `C`. -/
def certAB : Certificate :=
  { Certificate.zero with
    CertificateNo := "AB", TestUnit := "C", CreatedAt := "2025-03-01T10:00:00Z",
    TestData := [phItem] }

/-- The same certificate with certificate number `A` and test unit `BC`. -/
def certA : Certificate :=
  { certAB with CertificateNo := "A", TestUnit := "BC" }

/-! ## Basic facts -/

/-- Reading the key just written gives the written certificate. -/
theorem PutState_same (ctx : WorldState) (id : String) (cert : Certificate) :
    PutState ctx id cert id = some cert := by
  simp [PutState]

/-- Writing one key leaves every other key as it was. -/
theorem PutState_other (ctx : WorldState) (id key : String) (cert : Certificate)
    (h : key ≠ id) : PutState ctx id cert key = ctx key := by
  simp [PutState, h]

/-- An RFC 3339 timestamp is never the empty string. -/
theorem Time.Format_ne_empty (t : Time) : t.Format ≠ "" := by
  intro h
  have h2 := congrArg String.length h
  have e : "T".length = 1 := rfl
  simp [Time.Format, String.length_append, e] at h2

/-- Test vectors of SHA-256: the empty message and `abc`. -/
theorem sha256Hex_test_vectors :
    sha256Hex "" = "e3b0c44298fc1c149afbf4c8996fb92427ae41e4649b934ca495991b7852b855" ∧
    sha256Hex "abc"
      = "ba7816bf8f01cfea414140de5dae2223b00361a396177a9cb410ff61f20015ad" := by
  decide!

/-- Go prints `7.0` and `0.1` with `%f` as `7.000000` and `0.100000`. -/
theorem formatF_examples :
    phItem.MeasuredValue.formatF = "7.000000" ∧
    phItem.Uncertainty.formatF = "0.100000" := by
  decide

namespace Chaincode

/-- On an absent key and a decoded payload, create succeeds and stores the payload with
the four fields reset and one `CREATED` record appended to the payload's history. -/
theorem CreateCertificate_absent (ctx : WorldState) (id : String) (cert : Certificate)
    (t1 t2 t3 : Time) (h : ctx id = none) :
    CreateCertificate ctx id (.ok cert) t1 t2 t3 =
      (none, PutState ctx id { cert with
        ID := id, Status := "draft", CreatedAt := t1.Format, UpdatedAt := t2.Format,
        TraceHistory := cert.TraceHistory ++
          [{ Timestamp := t3.Format, Action := "CREATED", Operator := cert.CreatedBy,
             Details := "Certificate created" }] }) := by
  simp [CreateCertificate, CertificateExists, h]

/-- On a present key, create returns the already-exists error and the same ledger. -/
theorem CreateCertificate_present (ctx : WorldState) (id : String) (data : JSONData)
    (t1 t2 t3 : Time) (c : Certificate) (h : ctx id = some c) :
    CreateCertificate ctx id data t1 t2 t3 =
      (some ("certificate " ++ id ++ " already exists"), ctx) := by
  simp [CreateCertificate, CertificateExists, h]

end Chaincode

namespace Handlers

/-- The digest is the SHA-256 of the concatenated text. -/
theorem generateCertificateHashFromCert_eq (cert : Certificate) :
    generateCertificateHashFromCert cert = sha256Hex (hashInputFromCert cert) :=
  rfl

/-- The hash depends only on the six text fields, `createdAt` and the test data. -/
theorem generateCertificateHashFromCert_congr (a b : Certificate)
    (h1 : a.CertificateNo = b.CertificateNo) (h2 : a.TestUnit = b.TestUnit)
    (h3 : a.TestDate = b.TestDate) (h4 : a.InspectionOrg = b.InspectionOrg)
    (h5 : a.Inspector = b.Inspector) (h6 : a.ValidUntil = b.ValidUntil)
    (h7 : a.CreatedAt = b.CreatedAt) (h8 : a.TestData = b.TestData) :
    generateCertificateHashFromCert a = generateCertificateHashFromCert b := by
  simp only [generateCertificateHashFromCert, h1, h2, h3, h4, h5, h6, h7, h8]

/-- The seven conditional assignments and the re-hash of `mergeRequest` amount to the
field-wise merge with the hash of the merged content. -/
theorem mergeRequest_eq (c : Certificate) (req : UpdateCertificateRequest) :
    mergeRequest c req =
      { mergeSpec c req with Hash := generateCertificateHashFromCert (mergeSpec c req) } := by
  unfold mergeRequest mergeSpec
  by_cases h1 : req.CertificateNo = "" <;> by_cases h2 : req.TestUnit = "" <;>
  by_cases h3 : req.TestDate = "" <;> by_cases h4 : req.TestData.length > 0 <;>
  by_cases h5 : req.InspectionOrg = "" <;> by_cases h6 : req.Inspector = "" <;>
  by_cases h7 : req.ValidUntil = "" <;>
  simp only [h1, h2, h3, h4, h5, h6, h7, ne_eq, not_true_eq_false, not_false_eq_true,
    if_true, if_false]

/-- The merged certificate carries the hash of its own content. -/
theorem mergeRequest_Hash (c : Certificate) (req : UpdateCertificateRequest) :
    (mergeRequest c req).Hash = generateCertificateHashFromCert (mergeRequest c req) := by
  rw [mergeRequest_eq]
  exact generateCertificateHashFromCert_congr _ _ rfl rfl rfl rfl rfl rfl rfl rfl

/-- On a draft, the handler's update succeeds and stores the merged certificate with the
contract's metadata; the stored hash is the hash of the stored record. -/
theorem UpdateCertificate_draft (ctx : WorldState) (id : String) (c : Certificate)
    (req : UpdateCertificateRequest) (t1 t2 : Time)
    (hc : ctx id = some c) (hs : c.Status = "draft") :
    (UpdateCertificate ctx id (.ok req) t1 t2).1 = 200 ∧
    ∃ c', (UpdateCertificate ctx id (.ok req) t1 t2).2 id = some c' ∧
      c'.CertificateNo = (mergeRequest c req).CertificateNo ∧
      c'.TestUnit = (mergeRequest c req).TestUnit ∧
      c'.TestDate = (mergeRequest c req).TestDate ∧
      c'.TestData = (mergeRequest c req).TestData ∧
      c'.InspectionOrg = (mergeRequest c req).InspectionOrg ∧
      c'.Inspector = (mergeRequest c req).Inspector ∧
      c'.ValidUntil = (mergeRequest c req).ValidUntil ∧
      c'.Hash = generateCertificateHashFromCert c' := by
  simp only [UpdateCertificate, Chaincode.ReadCertificate, Chaincode.UpdateCertificate, hc,
    hs, ne_eq, not_true_eq_false, if_false, PutState_same, Option.some.injEq,
    exists_eq_left', true_and]
  rw [mergeRequest_Hash]
  have hat : (mergeRequest c req).CreatedAt = c.CreatedAt := by
    rw [mergeRequest_eq]
    rfl
  exact generateCertificateHashFromCert_congr _ _ rfl rfl rfl rfl rfl rfl hat rfl

end Handlers

/-- A successful call addressed to `id`, where a certificate is stored, appends to its
trace history exactly one record, tagged with the action of the call. -/
theorem Op.apply_ok_trace (op : Op) (ctx ctx' : WorldState) (id : String)
    (c : Certificate) (hk : op.key = id) (hc : ctx id = some c)
    (h : op.apply ctx = (none, ctx')) :
    ∃ c' r, ctx' id = some c' ∧ r.Action = op.tag ∧
      c'.TraceHistory = c.TraceHistory ++ [r] := by
  cases op with
  | create k d t1 t2 t3 =>
    simp only [Op.key] at hk
    subst hk
    simp [Op.apply, Chaincode.CreateCertificate_present _ _ _ _ _ _ c hc] at h
  | update k d operator t1 t2 =>
    simp only [Op.key] at hk
    subst hk
    simp only [Op.apply, Chaincode.UpdateCertificate, Chaincode.ReadCertificate, hc] at h
    split at h
    · simp at h
    · cases d with
      | error e => simp at h
      | ok p =>
        simp only [Prod.mk.injEq, true_and] at h
        subst h
        exact ⟨_, _, PutState_same _ _ _, rfl, rfl⟩
  | issue k operator t1 t2 t3 =>
    simp only [Op.key] at hk
    subst hk
    simp only [Op.apply, Chaincode.IssueCertificate, Chaincode.ReadCertificate, hc] at h
    split at h
    · simp at h
    · simp only [Prod.mk.injEq, true_and] at h
      subst h
      exact ⟨_, _, PutState_same _ _ _, rfl, rfl⟩
  | revoke k operator reason t1 t2 =>
    simp only [Op.key] at hk
    subst hk
    simp only [Op.apply, Chaincode.RevokeCertificate, Chaincode.ReadCertificate, hc] at h
    split at h
    · simp at h
    · simp only [Prod.mk.injEq, true_and] at h
      subst h
      exact ⟨_, _, PutState_same _ _ _, rfl, rfl⟩

/-- After a run of successful calls addressed to `id`, the action tags of the stored
trace history are the tags it had before followed by the tags of the calls, in order. -/
theorem runAll_tags (ops : List Op) (id : String) :
    ∀ (ctx ctx' : WorldState) (c : Certificate), ctx id = some c →
      (∀ op ∈ ops, op.key = id) → runAll ops ctx = some ctx' →
      ∃ c', ctx' id = some c' ∧
        c'.TraceHistory.map (fun r => r.Action)
          = c.TraceHistory.map (fun r => r.Action) ++ ops.map Op.tag := by
  induction ops with
  | nil =>
    intro ctx ctx' c hc _ h
    simp only [runAll, Option.some.injEq] at h
    subst h
    exact ⟨c, hc, by simp⟩
  | cons op ops ih =>
    intro ctx ctx' c hc hk h
    simp only [runAll] at h
    cases hop : op.apply ctx with
    | mk e ctx1 =>
      rw [hop] at h
      cases e with
      | some msg => simp at h
      | none =>
        simp only at h
        obtain ⟨c1, r, hc1, hr, ht⟩ :=
          Op.apply_ok_trace op ctx ctx1 id c (hk op (List.mem_cons_self _ _)) hc hop
        obtain ⟨c', hc', ht'⟩ :=
          ih ctx1 ctx' c1 hc1 (fun o ho => hk o (List.mem_cons_of_mem _ ho)) h
        exact ⟨c', hc', by rw [ht', ht]; simp [hr]⟩

/-- A create on an absent `id` followed by successful calls on `id`: the stored action
tags are those of the trace history the create payload carried, then `CREATED`, then
the tags of the calls. With a payload that carries no trace history the stored history
has one record per transition. -/
theorem create_then_runAll_tags (ctx ctx' : WorldState) (id : String) (p : Certificate)
    (t1 t2 t3 : Time) (ops : List Op) (habs : ctx id = none)
    (hk : ∀ op ∈ ops, op.key = id)
    (h : runAll (Op.create id (.ok p) t1 t2 t3 :: ops) ctx = some ctx') :
    ∃ c', ctx' id = some c' ∧
      c'.TraceHistory.map (fun r => r.Action)
        = p.TraceHistory.map (fun r => r.Action) ++ "CREATED" :: ops.map Op.tag := by
  simp only [runAll, Op.apply, Chaincode.CreateCertificate_absent ctx id p t1 t2 t3 habs] at h
  obtain ⟨c', hc', ht⟩ := runAll_tags ops id _ ctx' _ (PutState_same _ _ _) hk h
  exact ⟨c', hc', by rw [ht]; simp⟩

/-- With both bounds empty the range scan yields every pair of the world state, and
`GetAllCertificates` returns their values in order. -/
theorem Chaincode.GetAllCertificates_eq (stub : QueryStub) :
    Chaincode.GetAllCertificates stub = stub.state.map Prod.snd := by
  have hfold : ∀ (l : List (String × Certificate)) (acc : List Certificate),
      l.foldl (fun certificates queryResponse => certificates ++ [queryResponse.2]) acc
        = acc ++ l.map Prod.snd := by
    intro l
    induction l with
    | nil => intro acc; simp
    | cons kv l ih => intro acc; simp [ih]
  simp [Chaincode.GetAllCertificates, QueryStub.GetStateByRange, hfold]

/-- What one call can do to the record under a key `k`: leave it as it was, create it
with status `draft`, rewrite a draft as a draft or as issued, or rewrite a record that is
not revoked as revoked. -/
theorem Op.apply_status (op : Op) (ctx : WorldState) (k : String) (c' : Certificate)
    (h : (op.apply ctx).2 k = some c') :
    ctx k = some c' ∨ (ctx k = none ∧ c'.Status = "draft") ∨
    (∃ c, ctx k = some c ∧ c.Status = "draft" ∧
      (c'.Status = "draft" ∨ c'.Status = "issued")) ∨
    (∃ c, ctx k = some c ∧ c.Status ≠ "revoked" ∧ c'.Status = "revoked") := by
  have put : ∀ (key : String) (new : Certificate),
      PutState ctx key new k = some c' → (k = key ∧ new = c') ∨ ctx k = some c' := by
    intro key new hp
    by_cases hk : k = key
    · subst hk
      rw [PutState_same] at hp
      exact Or.inl ⟨rfl, Option.some.inj hp⟩
    · rw [PutState_other _ _ _ _ hk] at hp
      exact Or.inr hp
  cases op with
  | create key d t1 t2 t3 =>
    simp only [Op.apply, Chaincode.CreateCertificate, Chaincode.CertificateExists] at h
    cases hk : ctx key with
    | some c1 =>
      simp only [hk, Option.isSome_some, if_true] at h
      exact Or.inl h
    | none =>
      simp only [hk, Option.isSome_none, Bool.false_eq_true, if_false] at h
      cases d with
      | error e => exact Or.inl h
      | ok p =>
        rcases put _ _ h with ⟨hkk, hnew⟩ | hsame
        · subst hkk
          subst hnew
          exact Or.inr (Or.inl ⟨hk, rfl⟩)
        · exact Or.inl hsame
  | update key d operator t1 t2 =>
    simp only [Op.apply, Chaincode.UpdateCertificate, Chaincode.ReadCertificate] at h
    cases hk : ctx key with
    | none =>
      simp only [hk] at h
      exact Or.inl h
    | some c1 =>
      simp only [hk] at h
      by_cases hs : c1.Status = "draft"
      · cases d with
        | error e =>
          simp only [hs, ne_eq, not_true_eq_false, if_false] at h
          exact Or.inl h
        | ok p =>
          simp only [hs, ne_eq, not_true_eq_false, if_false] at h
          rcases put _ _ h with ⟨hkk, hnew⟩ | hsame
          · subst hkk
            subst hnew
            exact Or.inr (Or.inr (Or.inl ⟨c1, hk, hs, Or.inl rfl⟩))
          · exact Or.inl hsame
      · simp only [hs, ne_eq, not_false_eq_true, if_true] at h
        exact Or.inl h
  | issue key operator t1 t2 t3 =>
    simp only [Op.apply, Chaincode.IssueCertificate, Chaincode.ReadCertificate] at h
    cases hk : ctx key with
    | none =>
      simp only [hk] at h
      exact Or.inl h
    | some c1 =>
      simp only [hk] at h
      by_cases hs : c1.Status = "draft"
      · simp only [hs, ne_eq, not_true_eq_false, if_false] at h
        rcases put _ _ h with ⟨hkk, hnew⟩ | hsame
        · subst hkk
          subst hnew
          exact Or.inr (Or.inr (Or.inl ⟨c1, hk, hs, Or.inr rfl⟩))
        · exact Or.inl hsame
      · simp only [hs, ne_eq, not_false_eq_true, if_true] at h
        exact Or.inl h
  | revoke key operator reason t1 t2 =>
    simp only [Op.apply, Chaincode.RevokeCertificate, Chaincode.ReadCertificate] at h
    cases hk : ctx key with
    | none =>
      simp only [hk] at h
      exact Or.inl h
    | some c1 =>
      simp only [hk] at h
      by_cases hs : c1.Status = "revoked"
      · simp only [hs, if_true] at h
        exact Or.inl h
      · simp only [hs, if_false] at h
        rcases put _ _ h with ⟨hkk, hnew⟩ | hsame
        · subst hkk
          subst hnew
          exact Or.inr (Or.inr (Or.inr ⟨c1, hk, hs, rfl⟩))
        · exact Or.inl hsame

/-- One call keeps the three-status invariant. -/
theorem Op.apply_StatusOK (op : Op) (ctx : WorldState) (h : StatusOK ctx) :
    StatusOK (op.apply ctx).2 := by
  intro k c' hc'
  rcases Op.apply_status op ctx k c' hc' with hsame | ⟨_, hd⟩ | ⟨c, _, _, hd | hi⟩ |
    ⟨c, _, _, hr⟩
  · exact h k c' hsame
  · exact Or.inl hd
  · exact Or.inl hd
  · exact Or.inr (Or.inl hi)
  · exact Or.inr (Or.inr hr)

/-- A run of calls keeps the three-status invariant. -/
theorem execAll_StatusOK (ops : List Op) :
    ∀ ctx : WorldState, StatusOK ctx → StatusOK (execAll ops ctx) := by
  induction ops with
  | nil => intro ctx h; exact h
  | cons op ops ih => intro ctx h; exact ih _ (Op.apply_StatusOK op ctx h)

/-- The query handler on a bound request: the client it leaves has evaluated exactly the
transaction its `if` chain selects, once, after whatever it had evaluated before, and the
answer is 200 with the decoded list when that transaction returns one, 500 otherwise. -/
theorem Handlers.QueryCertificates_call (fc : FabricClient)
    (req : Handlers.QueryCertificatesRequest) (name : String) (args : List String)
    (h : (if req.TestUnit ≠ "" then ("QueryCertificatesByTestUnit", [req.TestUnit])
          else if req.Status ≠ "" then ("QueryCertificatesByStatus", [req.Status])
          else if req.InspectionOrg ≠ "" then
            ("QueryCertificatesByInspectionOrg", [req.InspectionOrg])
          else ("GetAllCertificates", [])) = (name, args)) :
    (Handlers.QueryCertificates fc (.ok req)).fabricClient
      = { fc with evaluated := fc.evaluated ++ [(name, args)] } ∧
    (∀ certs, fc.contract name args = .ok (.ok certs) →
      (Handlers.QueryCertificates fc (.ok req)).status = 200 ∧
      (Handlers.QueryCertificates fc (.ok req)).certificates = certs) ∧
    ((∀ certs, fc.contract name args ≠ .ok (.ok certs)) →
      (Handlers.QueryCertificates fc (.ok req)).status = 500 ∧
      (Handlers.QueryCertificates fc (.ok req)).certificates = []) := by
  have tail : ∀ (n : String) (a : List String),
      ((match fc.EvaluateTransaction n a with
        | (result, fabricClient) =>
          (match result with
          | .error _ => { fabricClient := fabricClient, status := 500, certificates := [] }
          | .ok (.error _) =>
            { fabricClient := fabricClient, status := 500, certificates := [] }
          | .ok (.ok certificates) =>
            { fabricClient := fabricClient, status := 200, certificates := certificates } :
          Handlers.QueryOutcome)) : Handlers.QueryOutcome) =
      { fabricClient := { fc with evaluated := fc.evaluated ++ [(n, a)] }
        status := (match fc.contract n a with
          | .ok (.ok _) => 200
          | _ => 500)
        certificates := (match fc.contract n a with
          | .ok (.ok certs) => certs
          | _ => []) } := by
    intro n a
    unfold FabricClient.EvaluateTransaction
    rcases fc.contract n a with e | (e | certs) <;> rfl
  have hq : Handlers.QueryCertificates fc (.ok req) =
      { fabricClient := { fc with evaluated := fc.evaluated ++ [(name, args)] }
        status := (match fc.contract name args with
          | .ok (.ok _) => 200
          | _ => 500)
        certificates := (match fc.contract name args with
          | .ok (.ok certs) => certs
          | _ => []) } := by
    unfold Handlers.QueryCertificates
    by_cases h1 : req.TestUnit = "" <;> by_cases h2 : req.Status = "" <;>
      by_cases h3 : req.InspectionOrg = "" <;>
      simp only [h1, h2, h3, ne_eq, not_true_eq_false, not_false_eq_true, if_true,
        if_false, Prod.mk.injEq] at h ⊢ <;>
      obtain ⟨hn, ha⟩ := h <;> subst hn <;> subst ha <;> exact tail _ _
  rw [hq]
  refine ⟨rfl, ?_, ?_⟩
  · intro certs hc
    simp [hc]
  · intro hno
    rcases hc : fc.contract name args with e | (e | certs)
    · exact ⟨rfl, rfl⟩
    · exact ⟨rfl, rfl⟩
    · exact absurd hc (hno certs)

/-! ## Claims about the contract -/

/-- C1 (code defect). `CreateCertificate` on an absent identifier with a well-formed
payload succeeds and stores ID, status `draft` and a final `CREATED` record by the
payload's creator, but it appends to the trace history the payload brought along: with
`forgedCert` the stored history has length 2 and starts with the forged `ISSUED`
record, where the claim requires length exactly 1. -/
theorem C1_create_keeps_payload_trace :
    WorldState.empty "cert-1" = none ∧
    (Chaincode.CreateCertificate WorldState.empty "cert-1" (.ok forgedCert)
      clock0 clock0 clock0).1 = none ∧
    ((Chaincode.CreateCertificate WorldState.empty "cert-1" (.ok forgedCert)
      clock0 clock0 clock0).2 "cert-1").map
        (fun c => (c.ID, c.Status, c.TraceHistory.length,
          c.TraceHistory.map (fun r => (r.Action, r.Operator))))
      = some ("cert-1", "draft", 2, [("ISSUED", "mallory"), ("CREATED", "alice")]) := by
  decide

/-- C2. Once `CreateCertificate(id, p1)` has succeeded, a second
`CreateCertificate(id, p2)`, whatever `p2` (malformed included) and whatever the clock,
returns the already-exists error and leaves the world state, hence the record under
`id`, as the first call stored it. -/
theorem C2_create_twice (ctx : WorldState) (id : String) (p1 p2 : JSONData)
    (t1 t2 t3 u1 u2 u3 : Time)
    (h : (Chaincode.CreateCertificate ctx id p1 t1 t2 t3).1 = none) :
    (Chaincode.CreateCertificate (Chaincode.CreateCertificate ctx id p1 t1 t2 t3).2 id p2
      u1 u2 u3).1 = some ("certificate " ++ id ++ " already exists") ∧
    (Chaincode.CreateCertificate (Chaincode.CreateCertificate ctx id p1 t1 t2 t3).2 id p2
      u1 u2 u3).2 = (Chaincode.CreateCertificate ctx id p1 t1 t2 t3).2 ∧
    ∃ c, (Chaincode.CreateCertificate ctx id p1 t1 t2 t3).2 id = some c ∧
      (Chaincode.CreateCertificate (Chaincode.CreateCertificate ctx id p1 t1 t2 t3).2 id p2
        u1 u2 u3).2 id = some c := by
  have hex : ∃ c, (Chaincode.CreateCertificate ctx id p1 t1 t2 t3).2 id = some c := by
    unfold Chaincode.CreateCertificate at h ⊢
    split at h
    · simp at h
    · split at h
      · simp at h
      · simp [*, PutState_same]
  obtain ⟨c, hc⟩ := hex
  have h2 := Chaincode.CreateCertificate_present _ id p2 u1 u2 u3 c hc
  refine ⟨by rw [h2], by rw [h2], c, hc, by rw [h2]; exact hc⟩

/-- Witness for C2: scenario 1 succeeds on the empty ledger; a second create under the
same key, here with the forged payload, is refused and changes nothing. -/
theorem C2_create_twice_witness :
    (Chaincode.CreateCertificate WorldState.empty "cert-1" (.ok scenarioCert)
      clock0 clock0 clock0).1 = none ∧
    (Chaincode.CreateCertificate ledger1 "cert-1" (.ok forgedCert)
      clock1 clock1 clock1).1 = some ("certificate " ++ "cert-1" ++ " already exists") ∧
    (Chaincode.CreateCertificate ledger1 "cert-1" (.ok forgedCert)
      clock1 clock1 clock1).2 = ledger1 ∧
    ∃ c, ledger1 "cert-1" = some c ∧
      (Chaincode.CreateCertificate ledger1 "cert-1" (.ok forgedCert)
        clock1 clock1 clock1).2 "cert-1" = some c :=
  ⟨by decide,
   C2_create_twice WorldState.empty "cert-1" (.ok scenarioCert) (.ok forgedCert)
     clock0 clock0 clock0 clock1 clock1 clock1 (by decide)⟩

/-- C3. `IssueCertificate(id, operator)` returns an error exactly when `id` is absent or
the stored status is not `draft`. On success the stored status is `issued`, `issuedDate`
is the formatted clock reading (never empty) and the trace history is the previous one
followed by one `ISSUED` record with the given operator. On failure the world state is
unchanged. -/
theorem C3_issue (ctx : WorldState) (id operator : String) (t1 t2 t3 : Time) :
    ((Chaincode.IssueCertificate ctx id operator t1 t2 t3).1 ≠ none ↔
      (ctx id = none ∨ ∃ c, ctx id = some c ∧ c.Status ≠ "draft")) ∧
    ((Chaincode.IssueCertificate ctx id operator t1 t2 t3).1 = none →
      ∃ c c' r, ctx id = some c ∧
        (Chaincode.IssueCertificate ctx id operator t1 t2 t3).2 id = some c' ∧
        c'.Status = "issued" ∧ c'.IssuedDate = t1.Format ∧ c'.IssuedDate ≠ "" ∧
        r.Action = "ISSUED" ∧ r.Operator = operator ∧
        c'.TraceHistory = c.TraceHistory ++ [r]) ∧
    ((Chaincode.IssueCertificate ctx id operator t1 t2 t3).1 ≠ none →
      (Chaincode.IssueCertificate ctx id operator t1 t2 t3).2 = ctx) := by
  unfold Chaincode.IssueCertificate Chaincode.ReadCertificate
  cases hc : ctx id with
  | none => simp
  | some c =>
    by_cases hs : c.Status = "draft"
    · simp [hs, PutState_same, Time.Format_ne_empty]
    · simp [hs]

/-- Witness for C3: scenario 2 succeeds on the draft and stores `issued2` with a
two-record history; issuing again fails and changes nothing. -/
theorem C3_issue_witness :
    (Chaincode.IssueCertificate ledger1 "cert-1" "carol" clock1 clock1 clock1).1 = none ∧
    ledger2 "cert-1" = some issued2 ∧
    (Chaincode.IssueCertificate ledger2 "cert-1" "carol" clock1 clock1 clock1).1 ≠ none ∧
    (∃ c c' r, ledger1 "cert-1" = some c ∧ ledger2 "cert-1" = some c' ∧
        c'.Status = "issued" ∧ c'.IssuedDate = clock1.Format ∧ c'.IssuedDate ≠ "" ∧
        r.Action = "ISSUED" ∧ r.Operator = "carol" ∧
        c'.TraceHistory = c.TraceHistory ++ [r]) ∧
    (Chaincode.IssueCertificate ledger2 "cert-1" "carol" clock1 clock1 clock1).2 = ledger2 :=
  ⟨by decide, by decide, by decide,
   (C3_issue ledger1 "cert-1" "carol" clock1 clock1 clock1).2.1 (by decide),
   (C3_issue ledger2 "cert-1" "carol" clock1 clock1 clock1).2.2 (by decide)⟩

/-- C4. `RevokeCertificate(id, operator, reason)` returns an error exactly when `id` is
absent or the stored status is already `revoked`. On success the stored status is
`revoked` and the trace history is the previous one followed by one `REVOKED` record
with the given operator whose details end in, so contain, the reason; any further
`RevokeCertificate` on `id` then fails and leaves the world state unchanged. -/
theorem C4_revoke (ctx : WorldState) (id operator reason : String) (t1 t2 : Time) :
    ((Chaincode.RevokeCertificate ctx id operator reason t1 t2).1 ≠ none ↔
      (ctx id = none ∨ ∃ c, ctx id = some c ∧ c.Status = "revoked")) ∧
    ((Chaincode.RevokeCertificate ctx id operator reason t1 t2).1 = none →
      (∃ c c' r, ctx id = some c ∧
        (Chaincode.RevokeCertificate ctx id operator reason t1 t2).2 id = some c' ∧
        c'.Status = "revoked" ∧
        r.Action = "REVOKED" ∧ r.Operator = operator ∧
        r.Details = "Certificate revoked. Reason: " ++ reason ∧
        reason.data <:+: r.Details.data ∧
        c'.TraceHistory = c.TraceHistory ++ [r]) ∧
      ∀ (operator2 reason2 : String) (u1 u2 : Time),
        (Chaincode.RevokeCertificate
          (Chaincode.RevokeCertificate ctx id operator reason t1 t2).2 id
          operator2 reason2 u1 u2).1 = some ("certificate " ++ id ++ " is already revoked") ∧
        (Chaincode.RevokeCertificate
          (Chaincode.RevokeCertificate ctx id operator reason t1 t2).2 id
          operator2 reason2 u1 u2).2
          = (Chaincode.RevokeCertificate ctx id operator reason t1 t2).2) := by
  cases hc : ctx id with
  | none => simp [Chaincode.RevokeCertificate, Chaincode.ReadCertificate, hc]
  | some c =>
    by_cases hs : c.Status = "revoked"
    · simp [Chaincode.RevokeCertificate, Chaincode.ReadCertificate, hc, hs]
    · have e : Chaincode.RevokeCertificate ctx id operator reason t1 t2 =
          (none, PutState ctx id { c with
            Status := "revoked", UpdatedAt := t1.Format,
            TraceHistory := c.TraceHistory ++
              [{ Timestamp := t2.Format, Action := "REVOKED", Operator := operator,
                 Details := "Certificate revoked. Reason: " ++ reason }] }) := by
        simp [Chaincode.RevokeCertificate, Chaincode.ReadCertificate, hc, hs]
      rw [e]
      refine ⟨by simp [hs], fun _ => ⟨⟨c, _, _, rfl, PutState_same _ _ _, rfl, rfl, rfl,
        rfl, ?_, rfl⟩, ?_⟩⟩
      · exact (List.suffix_append _ _).isInfix
      · intro operator2 reason2 u1 u2
        simp [Chaincode.RevokeCertificate, Chaincode.ReadCertificate, PutState_same]

/-- Witness for C4: scenario 4 revokes the issued certificate (three records then), the
draft can be revoked as well, and a second revoke fails and changes nothing. -/
theorem C4_revoke_witness :
    (Chaincode.RevokeCertificate ledger2 "cert-1" "dave" "expired" clock1 clock1).1 = none ∧
    (Chaincode.RevokeCertificate ledger1 "cert-1" "dave" "expired" clock1 clock1).1 = none ∧
    (ledger4 "cert-1").map (fun c => (c.Status, c.TraceHistory.length,
        c.TraceHistory.map (fun r => r.Details)))
      = some ("revoked", 3, ["Certificate created", "Certificate issued",
          "Certificate revoked. Reason: expired"]) ∧
    (Chaincode.RevokeCertificate ledger4 "cert-1" "erin" "again" clock1 clock1).1
      = some ("certificate " ++ "cert-1" ++ " is already revoked") ∧
    (Chaincode.RevokeCertificate ledger4 "cert-1" "erin" "again" clock1 clock1).2 = ledger4 :=
  ⟨by decide, by decide, by decide,
   ((C4_revoke ledger2 "cert-1" "dave" "expired" clock1 clock1).2 (by decide)).2
      "erin" "again" clock1 clock1⟩

/-- C5. `UpdateCertificate(id, payload, operator)` returns an error whenever `id` is
absent or the stored status is not `draft`, and whenever it returns an error (the two
cases above or a malformed payload) the world state after the call is the world state
before it: every stored record, trace history included, is what it was. -/
theorem C5_update_fails (ctx : WorldState) (id : String) (payload : JSONData)
    (operator : String) (t1 t2 : Time) :
    ((ctx id = none ∨ ∃ c, ctx id = some c ∧ c.Status ≠ "draft") →
      (Chaincode.UpdateCertificate ctx id payload operator t1 t2).1 ≠ none) ∧
    ((Chaincode.UpdateCertificate ctx id payload operator t1 t2).1 ≠ none →
      (Chaincode.UpdateCertificate ctx id payload operator t1 t2).2 = ctx) := by
  unfold Chaincode.UpdateCertificate Chaincode.ReadCertificate
  cases hc : ctx id with
  | none => simp
  | some c =>
    by_cases hs : c.Status = "draft"
    · cases payload <;> simp [hs]
    · simp [hs]

/-- Witness for C5: scenario 3, an update of the issued certificate, fails and the
ledger still holds `issued2` with its two trace records; an update of an absent key
fails as well. -/
theorem C5_update_fails_witness :
    ledger2 "cert-1" = some issued2 ∧ issued2.Status ≠ "draft" ∧
    issued2.TraceHistory.length = 2 ∧
    (Chaincode.UpdateCertificate ledger2 "cert-1" (.ok sparsePayload) "carol"
      clock1 clock1).1 ≠ none ∧
    (Chaincode.UpdateCertificate ledger2 "cert-1" (.ok sparsePayload) "carol"
      clock1 clock1).2 = ledger2 ∧
    ledger2 "cert-9" = none ∧
    (Chaincode.UpdateCertificate ledger2 "cert-9" (.ok sparsePayload) "carol"
      clock1 clock1).1 ≠ none :=
  ⟨by decide, by decide, by decide,
   (C5_update_fails ledger2 "cert-1" (.ok sparsePayload) "carol" clock1 clock1).1
     (Or.inr ⟨issued2, by decide, by decide⟩),
   (C5_update_fails ledger2 "cert-1" (.ok sparsePayload) "carol" clock1 clock1).2
     (by decide),
   by decide,
   (C5_update_fails ledger2 "cert-9" (.ok sparsePayload) "carol" clock1 clock1).1
     (Or.inl (by decide))⟩

/-- C6, counterexample. The scenario draft holds certificate number `C-1` and one
test-data item. A contract update whose payload leaves both empty succeeds and the
stored record then has an empty certificate number and no test data: the stored values
were not kept. -/
theorem C6_counterexample :
    (ledger1 "cert-1").map (fun c => (c.Status, c.CertificateNo, c.TestData))
      = some ("draft", "C-1", [phItem]) ∧
    (sparsePayload.CertificateNo, sparsePayload.TestData) = ("", []) ∧
    (Chaincode.UpdateCertificate ledger1 "cert-1" (.ok sparsePayload) "carol"
      clock1 clock1).1 = none ∧
    ((Chaincode.UpdateCertificate ledger1 "cert-1" (.ok sparsePayload) "carol"
      clock1 clock1).2 "cert-1").map (fun c => (c.CertificateNo, c.TestUnit, c.TestData))
      = some ("", "LabB", []) := by
  decide

/-- C6, amended. On a draft stored under `id`, the contract's `UpdateCertificate` with a
well-formed payload succeeds and every content field of the stored record (certificate
number, test unit, test date, inspection organisation, inspector, valid-until, test
data) is the payload's value, empty or not. The keep-when-empty rule holds one layer up:
the handler's `UpdateCertificate` merges the request into the stored record and submits
the result, so after it every content field that is empty in the request has the value
stored before, and the test data are the stored ones when the request has none. -/
theorem C6_update_content (ctx : WorldState) (id : String) (c payload : Certificate)
    (operator : String) (t1 t2 : Time) (hc : ctx id = some c) (hs : c.Status = "draft") :
    ((Chaincode.UpdateCertificate ctx id (.ok payload) operator t1 t2).1 = none ∧
      ∃ c', (Chaincode.UpdateCertificate ctx id (.ok payload) operator t1 t2).2 id
          = some c' ∧
        c'.CertificateNo = payload.CertificateNo ∧ c'.TestUnit = payload.TestUnit ∧
        c'.TestDate = payload.TestDate ∧ c'.InspectionOrg = payload.InspectionOrg ∧
        c'.Inspector = payload.Inspector ∧ c'.ValidUntil = payload.ValidUntil ∧
        c'.TestData = payload.TestData) ∧
    ∀ req : Handlers.UpdateCertificateRequest,
      (Handlers.UpdateCertificate ctx id (.ok req) t1 t2).1 = 200 ∧
      ∃ c', (Handlers.UpdateCertificate ctx id (.ok req) t1 t2).2 id = some c' ∧
        (req.CertificateNo = "" → c'.CertificateNo = c.CertificateNo) ∧
        (req.TestUnit = "" → c'.TestUnit = c.TestUnit) ∧
        (req.TestDate = "" → c'.TestDate = c.TestDate) ∧
        (req.InspectionOrg = "" → c'.InspectionOrg = c.InspectionOrg) ∧
        (req.Inspector = "" → c'.Inspector = c.Inspector) ∧
        (req.ValidUntil = "" → c'.ValidUntil = c.ValidUntil) ∧
        (req.TestData = [] → c'.TestData = c.TestData) := by
  constructor
  · simp [Chaincode.UpdateCertificate, Chaincode.ReadCertificate, hc, hs, PutState_same]
  · intro req
    obtain ⟨h200, c', hc', e1, e2, e3, e4, e5, e6, e7, _⟩ :=
      Handlers.UpdateCertificate_draft ctx id c req t1 t2 hc hs
    refine ⟨h200, c', hc', ?_, ?_, ?_, ?_, ?_, ?_, ?_⟩
    · intro h; rw [e1, Handlers.mergeRequest_eq]; simp [Handlers.mergeSpec, h]
    · intro h; rw [e2, Handlers.mergeRequest_eq]; simp [Handlers.mergeSpec, h]
    · intro h; rw [e3, Handlers.mergeRequest_eq]; simp [Handlers.mergeSpec, h]
    · intro h; rw [e5, Handlers.mergeRequest_eq]; simp [Handlers.mergeSpec, h]
    · intro h; rw [e6, Handlers.mergeRequest_eq]; simp [Handlers.mergeSpec, h]
    · intro h; rw [e7, Handlers.mergeRequest_eq]; simp [Handlers.mergeSpec, h]
    · intro h; rw [e4, Handlers.mergeRequest_eq]; simp [Handlers.mergeSpec, h]

/-- Witness for C6: on the scenario draft the contract's update with `sparsePayload`
empties the certificate number, while the handler's update with `sparseRequest` returns
200 and keeps the certificate number and the test data and takes the new test unit. -/
theorem C6_update_content_witness :
    ledger1 "cert-1" = some draft1 ∧ draft1.Status = "draft" ∧
    (Chaincode.UpdateCertificate ledger1 "cert-1" (.ok sparsePayload) "carol"
      clock1 clock1).1 = none ∧
    (Handlers.UpdateCertificate ledger1 "cert-1" (.ok sparseRequest) clock1 clock1).1
      = 200 ∧
    ((Handlers.UpdateCertificate ledger1 "cert-1" (.ok sparseRequest) clock1 clock1).2
        "cert-1").map (fun c => (c.CertificateNo, c.TestUnit, c.TestData))
      = some ("C-1", "LabB", [phItem]) :=
  ⟨by decide, by decide,
   (C6_update_content ledger1 "cert-1" draft1 sparsePayload "carol" clock1 clock1
      (by decide) (by decide)).1.1,
   ((C6_update_content ledger1 "cert-1" draft1 sparsePayload "carol" clock1 clock1
      (by decide) (by decide)).2 sparseRequest).1,
   by decide⟩

/-- C7. On a draft certificate stored under `id`, `UpdateCertificate` with a well-formed
payload succeeds, whatever ID, status, creator, creation time or trace history the
payload carries, and the stored record keeps the ID, the status `draft`, `createdBy` and
`createdAt` it had; its trace history is the complete previous one followed by one
`UPDATED` record with the given operator. -/
theorem C7_update_preserves_metadata (ctx : WorldState) (id : String)
    (c payload : Certificate) (operator : String) (t1 t2 : Time)
    (hc : ctx id = some c) (hs : c.Status = "draft") :
    (Chaincode.UpdateCertificate ctx id (.ok payload) operator t1 t2).1 = none ∧
    ∃ c' r, (Chaincode.UpdateCertificate ctx id (.ok payload) operator t1 t2).2 id
        = some c' ∧
      c'.ID = c.ID ∧ c'.Status = "draft" ∧ c'.Status = c.Status ∧
      c'.CreatedBy = c.CreatedBy ∧ c'.CreatedAt = c.CreatedAt ∧
      r.Action = "UPDATED" ∧ r.Operator = operator ∧
      c'.TraceHistory = c.TraceHistory ++ [r] := by
  simp [Chaincode.UpdateCertificate, Chaincode.ReadCertificate, hc, hs, PutState_same]

/-- Witness for C7: the scenario draft updated with `intrudingPayload`, which carries
another ID, status `issued`, another creator and creation time and a forged trace
history. -/
theorem C7_update_preserves_metadata_witness :
    ledger1 "cert-1" = some draft1 ∧ draft1.Status = "draft" ∧
    (Chaincode.UpdateCertificate ledger1 "cert-1" (.ok intrudingPayload) "carol"
      clock1 clock1).1 = none ∧
    ∃ c' r, (Chaincode.UpdateCertificate ledger1 "cert-1" (.ok intrudingPayload) "carol"
        clock1 clock1).2 "cert-1" = some c' ∧
      c'.ID = draft1.ID ∧ c'.Status = "draft" ∧ c'.Status = draft1.Status ∧
      c'.CreatedBy = draft1.CreatedBy ∧ c'.CreatedAt = draft1.CreatedAt ∧
      r.Action = "UPDATED" ∧ r.Operator = "carol" ∧
      c'.TraceHistory = draft1.TraceHistory ++ [r] :=
  ⟨by decide, by decide,
   C7_update_preserves_metadata ledger1 "cert-1" draft1 intrudingPayload "carol"
     clock1 clock1 (by decide) (by decide)⟩

/-- C8 (code defect, the one of C1). Two successful transitions on `cert-1`, a create on
the empty ledger with `forgedCert` and an issue, leave a trace history of length 3 with
tags `ISSUED, CREATED, ISSUED`, where the claim requires length 2 and tags
`CREATED, ISSUED`. -/
theorem C8_trace_longer_than_run :
    WorldState.empty "cert-1" = none ∧
    [Op.create "cert-1" (.ok forgedCert) clock0 clock0 clock0,
      Op.issue "cert-1" "carol" clock1 clock1 clock1].length = 2 ∧
    (runAll [Op.create "cert-1" (.ok forgedCert) clock0 clock0 clock0,
        Op.issue "cert-1" "carol" clock1 clock1 clock1] WorldState.empty).map
      (fun ctx => (ctx "cert-1").map
        (fun c => (c.TraceHistory.length, c.TraceHistory.map (fun r => r.Action))))
      = some (some (3, ["ISSUED", "CREATED", "ISSUED"])) := by
  decide

/-- C9. If a certificate is stored under `id`, then after any single call of
`CreateCertificate`, `UpdateCertificate`, `IssueCertificate` or `RevokeCertificate`,
on any key, with any arguments, failed or not, a certificate is still stored under `id`
and the trace history it had before is an initial segment of the one it has after: no
entry is removed, reordered or altered, and the length does not decrease. -/
theorem C9_trace_history_extends (ctx : WorldState) (id : String) (c : Certificate)
    (op : Op) (hc : ctx id = some c) :
    ∃ c', (op.apply ctx).2 id = some c' ∧
      c.TraceHistory <+: c'.TraceHistory ∧
      c.TraceHistory.length ≤ c'.TraceHistory.length := by
  have key : ∀ (k : String) (c1 : Certificate) (r : TraceRecord), ctx k = some c1 →
      (c1.TraceHistory = c.TraceHistory ∨ k ≠ id) →
      ∀ c2 : Certificate, c2.TraceHistory = c1.TraceHistory ++ [r] →
      ∃ c', PutState ctx k c2 id = some c' ∧
        c.TraceHistory <+: c'.TraceHistory ∧
        c.TraceHistory.length ≤ c'.TraceHistory.length := by
    intro k c1 r hk hor c2 h2
    by_cases hkid : id = k
    · subst hkid
      rw [hc] at hk
      cases hk
      exact ⟨c2, PutState_same _ _ _, by rw [h2]; exact ⟨_, rfl⟩,
        by rw [h2]; simp⟩
    · exact ⟨c, by rw [PutState_other _ _ _ _ hkid]; exact hc, ⟨[], List.append_nil _⟩,
        Nat.le_refl _⟩
  have same : ∃ c', ctx id = some c' ∧ c.TraceHistory <+: c'.TraceHistory ∧
      c.TraceHistory.length ≤ c'.TraceHistory.length :=
    ⟨c, hc, ⟨[], List.append_nil _⟩, Nat.le_refl _⟩
  cases op with
  | create k d t1 t2 t3 =>
    simp only [Op.apply, Chaincode.CreateCertificate, Chaincode.CertificateExists]
    cases hk : ctx k with
    | some c1 => simpa using same
    | none =>
      have hne : id ≠ k := by
        intro e
        rw [e, hk] at hc
        cases hc
      cases d with
      | error e => simpa using same
      | ok p =>
        simp only [Option.isSome_none, Bool.false_eq_true, if_false]
        exact ⟨c, by rw [PutState_other _ _ _ _ hne]; exact hc, ⟨[], List.append_nil _⟩,
          Nat.le_refl _⟩
  | update k d operator t1 t2 =>
    simp only [Op.apply, Chaincode.UpdateCertificate, Chaincode.ReadCertificate]
    cases hk : ctx k with
    | none => simpa using same
    | some c1 =>
      by_cases hs : c1.Status = "draft"
      · cases d with
        | error e => simpa [hs] using same
        | ok p =>
          simp only [hs, ne_eq, not_true_eq_false, if_false]
          refine key k c1 _ hk ?_ _ rfl
          by_cases hkid : k = id
          · left
            rw [hkid, hc] at hk
            cases hk
            rfl
          · right
            exact hkid
      · simpa [hs] using same
  | issue k operator t1 t2 t3 =>
    simp only [Op.apply, Chaincode.IssueCertificate, Chaincode.ReadCertificate]
    cases hk : ctx k with
    | none => simpa using same
    | some c1 =>
      by_cases hs : c1.Status = "draft"
      · simp only [hs, ne_eq, not_true_eq_false, if_false]
        refine key k c1 _ hk ?_ _ rfl
        by_cases hkid : k = id
        · left
          rw [hkid, hc] at hk
          cases hk
          rfl
        · right
          exact hkid
      · simpa [hs] using same
  | revoke k operator reason t1 t2 =>
    simp only [Op.apply, Chaincode.RevokeCertificate, Chaincode.ReadCertificate]
    cases hk : ctx k with
    | none => simpa using same
    | some c1 =>
      by_cases hs : c1.Status = "revoked"
      · simpa [hs] using same
      · simp only [hs, if_false]
        refine key k c1 _ hk ?_ _ rfl
        by_cases hkid : k = id
        · left
          rw [hkid, hc] at hk
          cases hk
          rfl
        · right
          exact hkid

/-- Witness for C9: on the issued certificate the revoke of scenario 4 succeeds and the
update of scenario 3 fails; both keep the two stored records as an initial segment. -/
theorem C9_trace_history_extends_witness :
    ledger2 "cert-1" = some issued2 ∧
    (∃ c', ((Op.revoke "cert-1" "dave" "expired" clock1 clock1).apply ledger2).2
        "cert-1" = some c' ∧
      issued2.TraceHistory <+: c'.TraceHistory ∧
      issued2.TraceHistory.length ≤ c'.TraceHistory.length) ∧
    (∃ c', ((Op.update "cert-1" (.ok forgedCert) "carol" clock1 clock1).apply ledger2).2
        "cert-1" = some c' ∧
      issued2.TraceHistory <+: c'.TraceHistory ∧
      issued2.TraceHistory.length ≤ c'.TraceHistory.length) :=
  ⟨by decide,
   C9_trace_history_extends ledger2 "cert-1" issued2
     (Op.revoke "cert-1" "dave" "expired" clock1 clock1) (by decide),
   C9_trace_history_extends ledger2 "cert-1" issued2
     (Op.update "cert-1" (.ok forgedCert) "carol" clock1 clock1) (by decide)⟩

/-- C10 (code defect). The handler hashes a new certificate with its own clock reading,
the contract stamps `createdAt` with a later one. For the scenario request, handler
clock 10:00:00 and contract clock 10:00:01, the create returns 201, the stored hash is
the digest over `...2025-03-01T10:00:00Z...` and `generateCertificateHashFromCert` of
the stored record is the digest over `...2025-03-01T10:00:01Z...`: they differ. -/
theorem C10_created_hash_not_reproducible :
    (Handlers.CreateCertificate WorldState.empty (.ok scenarioRequest) "cert-1"
      clock0 clock1 clock1 clock1).1 = 201 ∧
    ((Handlers.CreateCertificate WorldState.empty (.ok scenarioRequest) "cert-1"
      clock0 clock1 clock1 clock1).2 "cert-1").map
        (fun c => (c.CreatedAt, c.Hash, Handlers.generateCertificateHashFromCert c))
      = some ("2025-03-01T10:00:01Z",
          "d52f51f099f20a6efaf57ff5ecae2c17bdeac1c9e5a54603478d59f9c65cd55a",
          "af915ec7510b8e5feeafe56bd86791c798c8fcb2e0448ae5e4ece05430f2b086") := by
  decide!

/-- C11. In the world state after any run of `CreateCertificate`, `UpdateCertificate`,
`IssueCertificate` and `RevokeCertificate` calls on the empty ledger, with any
arguments and whether they fail or not, every stored certificate has status `draft`,
`issued` or `revoked`; and whenever one further call leaves a record under a key with
another status than it had, the change is draft to issued, draft to revoked or issued to
revoked. -/
theorem C11_status_state_machine (ops : List Op) :
    (∀ k c, execAll ops WorldState.empty k = some c →
      c.Status = "draft" ∨ c.Status = "issued" ∨ c.Status = "revoked") ∧
    ∀ (op : Op) (k : String) (c c' : Certificate),
      execAll ops WorldState.empty k = some c →
      (op.apply (execAll ops WorldState.empty)).2 k = some c' →
      c'.Status ≠ c.Status →
      (c.Status = "draft" ∧ c'.Status = "issued") ∨
      (c.Status = "draft" ∧ c'.Status = "revoked") ∨
      (c.Status = "issued" ∧ c'.Status = "revoked") := by
  have hinv : StatusOK (execAll ops WorldState.empty) :=
    execAll_StatusOK ops WorldState.empty (fun k c h => by simp [WorldState.empty] at h)
  refine ⟨hinv, ?_⟩
  intro op k c c' hc hc' hne
  rcases Op.apply_status op _ k c' hc' with hsame | ⟨hnone, _⟩ | ⟨c0, h0, hd, hd' | hi⟩ |
    ⟨c0, h0, hnr, hr⟩
  · rw [hc] at hsame
    cases hsame
    exact absurd rfl hne
  · rw [hc] at hnone
    cases hnone
  · rw [hc] at h0
    cases h0
    exact absurd (hd'.trans hd.symm) hne
  · rw [hc] at h0
    cases h0
    exact Or.inl ⟨hd, hi⟩
  · rw [hc] at h0
    cases h0
    rcases hinv k c hc with hd | hi | hrv
    · exact Or.inr (Or.inl ⟨hd, hr⟩)
    · exact Or.inr (Or.inr ⟨hi, hr⟩)
    · exact absurd hrv hnr

/-- Witness for C11: after `intrudingRun`, whose payloads claim status `issued`, the
record is a draft; an issue then changes the status, and the change is draft to issued. -/
theorem C11_status_state_machine_witness :
    (execAll intrudingRun WorldState.empty "cert-1").map (fun c => c.Status)
      = some "draft" ∧
    (((Op.issue "cert-1" "carol" clock1 clock1 clock1).apply
      (execAll intrudingRun WorldState.empty)).2 "cert-1").map (fun c => c.Status)
      = some "issued" ∧
    ∀ c c', execAll intrudingRun WorldState.empty "cert-1" = some c →
      ((Op.issue "cert-1" "carol" clock1 clock1 clock1).apply
        (execAll intrudingRun WorldState.empty)).2 "cert-1" = some c' →
      c'.Status ≠ c.Status →
      (c.Status = "draft" ∧ c'.Status = "issued") ∨
      (c.Status = "draft" ∧ c'.Status = "revoked") ∨
      (c.Status = "issued" ∧ c'.Status = "revoked") :=
  ⟨by decide, by decide,
   (C11_status_state_machine intrudingRun).2
     (Op.issue "cert-1" "carol" clock1 clock1 clock1) "cert-1"⟩

/-- C12. A successful `IssueCertificate` and a successful `RevokeCertificate` on `id`
store the prior record with only status, `updatedAt`, trace history and, for issue,
`issuedDate` written anew: ID, creator, creation time, certificate number, test unit,
test date, test data, inspection organisation, inspector, valid-until and hash are the
prior ones, and revoke keeps `issuedDate` too. -/
theorem C12_issue_revoke_frame (ctx : WorldState) (id operator reason : String)
    (t1 t2 t3 : Time) :
    ((Chaincode.IssueCertificate ctx id operator t1 t2 t3).1 = none →
      ∃ c c', ctx id = some c ∧
        (Chaincode.IssueCertificate ctx id operator t1 t2 t3).2 id = some c' ∧
        c' = { c with Status := c'.Status, IssuedDate := c'.IssuedDate,
                      UpdatedAt := c'.UpdatedAt, TraceHistory := c'.TraceHistory } ∧
        c'.ID = c.ID ∧ c'.CreatedBy = c.CreatedBy ∧ c'.CreatedAt = c.CreatedAt ∧
        c'.CertificateNo = c.CertificateNo ∧ c'.TestUnit = c.TestUnit ∧
        c'.TestDate = c.TestDate ∧ c'.TestData = c.TestData ∧
        c'.InspectionOrg = c.InspectionOrg ∧ c'.Inspector = c.Inspector ∧
        c'.ValidUntil = c.ValidUntil ∧ c'.Hash = c.Hash) ∧
    ((Chaincode.RevokeCertificate ctx id operator reason t1 t2).1 = none →
      ∃ c c', ctx id = some c ∧
        (Chaincode.RevokeCertificate ctx id operator reason t1 t2).2 id = some c' ∧
        c' = { c with Status := c'.Status, UpdatedAt := c'.UpdatedAt,
                      TraceHistory := c'.TraceHistory } ∧
        c'.ID = c.ID ∧ c'.CreatedBy = c.CreatedBy ∧ c'.CreatedAt = c.CreatedAt ∧
        c'.CertificateNo = c.CertificateNo ∧ c'.TestUnit = c.TestUnit ∧
        c'.TestDate = c.TestDate ∧ c'.TestData = c.TestData ∧
        c'.InspectionOrg = c.InspectionOrg ∧ c'.Inspector = c.Inspector ∧
        c'.ValidUntil = c.ValidUntil ∧ c'.Hash = c.Hash ∧
        c'.IssuedDate = c.IssuedDate) := by
  constructor
  · unfold Chaincode.IssueCertificate Chaincode.ReadCertificate
    cases hc : ctx id with
    | none => simp
    | some c =>
      by_cases hs : c.Status = "draft"
      · simp [hs, PutState_same]
      · simp [hs]
  · unfold Chaincode.RevokeCertificate Chaincode.ReadCertificate
    cases hc : ctx id with
    | none => simp
    | some c =>
      by_cases hs : c.Status = "revoked"
      · simp [hs]
      · simp [hs, PutState_same]

/-- Witness for C12: the issue of scenario 2 on the draft and the revoke of scenario 4
on the issued certificate both succeed; the hash and the certificate number stay, and
the revoke keeps the issue date. -/
theorem C12_issue_revoke_frame_witness :
    (Chaincode.IssueCertificate ledger1 "cert-1" "carol" clock1 clock1 clock1).1 = none ∧
    (Chaincode.RevokeCertificate ledger2 "cert-1" "dave" "expired" clock1 clock1).1
      = none ∧
    (∃ c c', ledger1 "cert-1" = some c ∧
        (Chaincode.IssueCertificate ledger1 "cert-1" "carol" clock1 clock1 clock1).2
          "cert-1" = some c' ∧
        c'.CertificateNo = c.CertificateNo ∧ c'.Hash = c.Hash) ∧
    (∃ c c', ledger2 "cert-1" = some c ∧
        (Chaincode.RevokeCertificate ledger2 "cert-1" "dave" "expired" clock1 clock1).2
          "cert-1" = some c' ∧
        c'.Hash = c.Hash ∧ c'.IssuedDate = c.IssuedDate) :=
  ⟨by decide, by decide,
   (((C12_issue_revoke_frame ledger1 "cert-1" "carol" "" clock1 clock1 clock1).1
      (by decide)).imp fun _ h => h.imp fun _ h =>
        ⟨h.1, h.2.1, h.2.2.2.2.2.2.1, h.2.2.2.2.2.2.2.2.2.2.2.2.2⟩),
   (((C12_issue_revoke_frame ledger2 "cert-1" "dave" "expired" clock1 clock1 clock1).2
      (by decide)).imp fun _ h => h.imp fun _ h =>
        ⟨h.1, h.2.1, h.2.2.2.2.2.2.2.2.2.2.2.2.2.1, h.2.2.2.2.2.2.2.2.2.2.2.2.2.2⟩)⟩

/-- C13. In the merge step of the handler's `UpdateCertificate`, each of certificate
number, test unit, test date, inspection organisation, inspector and valid-until of the
merged certificate is the request's value when that is non-empty and the existing value
otherwise; the test data are the request's whole sequence when it is non-empty and the
existing sequence otherwise; the merged hash is `generateCertificateHashFromCert` of the
merged certificate. -/
theorem C13_merge_step (existingCert : Certificate)
    (req : Handlers.UpdateCertificateRequest) :
    (Handlers.mergeRequest existingCert req).CertificateNo
      = (if req.CertificateNo ≠ "" then req.CertificateNo
          else existingCert.CertificateNo) ∧
    (Handlers.mergeRequest existingCert req).TestUnit
      = (if req.TestUnit ≠ "" then req.TestUnit else existingCert.TestUnit) ∧
    (Handlers.mergeRequest existingCert req).TestDate
      = (if req.TestDate ≠ "" then req.TestDate else existingCert.TestDate) ∧
    (Handlers.mergeRequest existingCert req).InspectionOrg
      = (if req.InspectionOrg ≠ "" then req.InspectionOrg
          else existingCert.InspectionOrg) ∧
    (Handlers.mergeRequest existingCert req).Inspector
      = (if req.Inspector ≠ "" then req.Inspector else existingCert.Inspector) ∧
    (Handlers.mergeRequest existingCert req).ValidUntil
      = (if req.ValidUntil ≠ "" then req.ValidUntil else existingCert.ValidUntil) ∧
    (Handlers.mergeRequest existingCert req).TestData
      = (if req.TestData ≠ [] then req.TestData else existingCert.TestData) ∧
    (Handlers.mergeRequest existingCert req).Hash
      = Handlers.generateCertificateHashFromCert
          (Handlers.mergeRequest existingCert req) := by
  refine ⟨?_, ?_, ?_, ?_, ?_, ?_, ?_, Handlers.mergeRequest_Hash existingCert req⟩
  all_goals rw [Handlers.mergeRequest_eq]
  · rfl
  · rfl
  · rfl
  · rfl
  · rfl
  · rfl
  · show (if req.TestData.length > 0 then req.TestData else existingCert.TestData) = _
    cases req.TestData <;> simp

/-- Witness for C13: the request `sparseRequest` merged into the scenario draft takes the
new test unit, keeps the certificate number and the test data, and re-hashes. -/
theorem C13_merge_step_witness :
    ((Handlers.mergeRequest draft1 sparseRequest).CertificateNo,
      (Handlers.mergeRequest draft1 sparseRequest).TestUnit,
      (Handlers.mergeRequest draft1 sparseRequest).TestData) = ("C-1", "LabB", [phItem]) ∧
    (Handlers.mergeRequest draft1 sparseRequest).Hash
      = Handlers.generateCertificateHashFromCert
          (Handlers.mergeRequest draft1 sparseRequest) :=
  ⟨by decide, (C13_merge_step draft1 sparseRequest).2.2.2.2.2.2.2⟩

/-- C14. On a bound query request the handler's `QueryCertificates` makes exactly one
ledger call, read off the fabric client it leaves: the by-test-unit query when the test
unit is non-empty, else the by-status query when the status is non-empty, else the
by-inspection-organisation query when that is non-empty, else `GetAllCertificates`; and
its answer is the answer of that call, 200 with the list the call returns or 500 when it
fails. The filters after the first non-empty one are ignored: requests that agree on it
get the same outcome. Against the contract on a ledger the answer is 200 with the result
of the contract method of that name on the chosen field, and with no filter the value of
every pair of the world state. -/
theorem C14_query_dispatch (fc : FabricClient) (stub : QueryStub)
    (req : Handlers.QueryCertificatesRequest) :
    (Handlers.QueryCertificates fc (.ok req)).fabricClient.evaluated.length
      = fc.evaluated.length + 1 ∧
    (req.TestUnit ≠ "" →
      (Handlers.QueryCertificates fc (.ok req)).fabricClient.evaluated
        = fc.evaluated ++ [("QueryCertificatesByTestUnit", [req.TestUnit])] ∧
      (∀ certs, fc.contract "QueryCertificatesByTestUnit" [req.TestUnit] = .ok (.ok certs) →
        (Handlers.QueryCertificates fc (.ok req)).status = 200 ∧
        (Handlers.QueryCertificates fc (.ok req)).certificates = certs) ∧
      ((∀ certs, fc.contract "QueryCertificatesByTestUnit" [req.TestUnit] ≠ .ok (.ok certs)) →
        (Handlers.QueryCertificates fc (.ok req)).status = 500 ∧
        (Handlers.QueryCertificates fc (.ok req)).certificates = [])) ∧
    (req.TestUnit = "" → req.Status ≠ "" →
      (Handlers.QueryCertificates fc (.ok req)).fabricClient.evaluated
        = fc.evaluated ++ [("QueryCertificatesByStatus", [req.Status])] ∧
      (∀ certs, fc.contract "QueryCertificatesByStatus" [req.Status] = .ok (.ok certs) →
        (Handlers.QueryCertificates fc (.ok req)).status = 200 ∧
        (Handlers.QueryCertificates fc (.ok req)).certificates = certs) ∧
      ((∀ certs, fc.contract "QueryCertificatesByStatus" [req.Status] ≠ .ok (.ok certs)) →
        (Handlers.QueryCertificates fc (.ok req)).status = 500 ∧
        (Handlers.QueryCertificates fc (.ok req)).certificates = [])) ∧
    (req.TestUnit = "" → req.Status = "" → req.InspectionOrg ≠ "" →
      (Handlers.QueryCertificates fc (.ok req)).fabricClient.evaluated
        = fc.evaluated ++ [("QueryCertificatesByInspectionOrg", [req.InspectionOrg])] ∧
      (∀ certs, fc.contract "QueryCertificatesByInspectionOrg" [req.InspectionOrg] = .ok (.ok certs) →
        (Handlers.QueryCertificates fc (.ok req)).status = 200 ∧
        (Handlers.QueryCertificates fc (.ok req)).certificates = certs) ∧
      ((∀ certs, fc.contract "QueryCertificatesByInspectionOrg" [req.InspectionOrg] ≠ .ok (.ok certs)) →
        (Handlers.QueryCertificates fc (.ok req)).status = 500 ∧
        (Handlers.QueryCertificates fc (.ok req)).certificates = [])) ∧
    (req.TestUnit = "" → req.Status = "" → req.InspectionOrg = "" →
      (Handlers.QueryCertificates fc (.ok req)).fabricClient.evaluated
        = fc.evaluated ++ [("GetAllCertificates", [])] ∧
      (∀ certs, fc.contract "GetAllCertificates" [] = .ok (.ok certs) →
        (Handlers.QueryCertificates fc (.ok req)).status = 200 ∧
        (Handlers.QueryCertificates fc (.ok req)).certificates = certs) ∧
      ((∀ certs, fc.contract "GetAllCertificates" [] ≠ .ok (.ok certs)) →
        (Handlers.QueryCertificates fc (.ok req)).status = 500 ∧
        (Handlers.QueryCertificates fc (.ok req)).certificates = [])) ∧
    (∀ req' : Handlers.QueryCertificatesRequest,
      req.TestUnit ≠ "" → req'.TestUnit = req.TestUnit →
      Handlers.QueryCertificates fc (.ok req') = Handlers.QueryCertificates fc (.ok req)) ∧
    (∀ req' : Handlers.QueryCertificatesRequest,
      req.TestUnit = "" → req.Status ≠ "" → req'.TestUnit = "" →
      req'.Status = req.Status →
      Handlers.QueryCertificates fc (.ok req') = Handlers.QueryCertificates fc (.ok req)) ∧
    (req.TestUnit ≠ "" →
      (Handlers.QueryCertificates { fc with contract := evaluateOnLedger stub }
        (.ok req)).status = 200 ∧
      (Handlers.QueryCertificates { fc with contract := evaluateOnLedger stub }
        (.ok req)).certificates = Chaincode.QueryCertificatesByTestUnit stub req.TestUnit) ∧
    (req.TestUnit = "" → req.Status ≠ "" →
      (Handlers.QueryCertificates { fc with contract := evaluateOnLedger stub }
        (.ok req)).status = 200 ∧
      (Handlers.QueryCertificates { fc with contract := evaluateOnLedger stub }
        (.ok req)).certificates = Chaincode.QueryCertificatesByStatus stub req.Status) ∧
    (req.TestUnit = "" → req.Status = "" → req.InspectionOrg ≠ "" →
      (Handlers.QueryCertificates { fc with contract := evaluateOnLedger stub }
        (.ok req)).status = 200 ∧
      (Handlers.QueryCertificates { fc with contract := evaluateOnLedger stub }
        (.ok req)).certificates
        = Chaincode.QueryCertificatesByInspectionOrg stub req.InspectionOrg) ∧
    (req.TestUnit = "" → req.Status = "" → req.InspectionOrg = "" →
      (Handlers.QueryCertificates { fc with contract := evaluateOnLedger stub }
        (.ok req)).status = 200 ∧
      (Handlers.QueryCertificates { fc with contract := evaluateOnLedger stub }
        (.ok req)).certificates = stub.state.map Prod.snd ∧
      ∀ k c, (k, c) ∈ stub.state →
        c ∈ (Handlers.QueryCertificates { fc with contract := evaluateOnLedger stub }
          (.ok req)).certificates) := by
  have hlen : (Handlers.QueryCertificates fc (.ok req)).fabricClient.evaluated.length
      = fc.evaluated.length + 1 := by
    rw [(Handlers.QueryCertificates_call fc req _ _ rfl).1]
    simp
  refine ⟨hlen, ?_, ?_, ?_, ?_, ?_, ?_, ?_, ?_, ?_, ?_⟩
  · intro h1
    have h := Handlers.QueryCertificates_call fc req
      "QueryCertificatesByTestUnit" [req.TestUnit] (by simp [h1])
    exact ⟨by rw [h.1], h.2⟩
  · intro h1 h2
    have h := Handlers.QueryCertificates_call fc req
      "QueryCertificatesByStatus" [req.Status] (by simp [h1, h2])
    exact ⟨by rw [h.1], h.2⟩
  · intro h1 h2 h3
    have h := Handlers.QueryCertificates_call fc req
      "QueryCertificatesByInspectionOrg" [req.InspectionOrg] (by simp [h1, h2, h3])
    exact ⟨by rw [h.1], h.2⟩
  · intro h1 h2 h3
    have h := Handlers.QueryCertificates_call fc req
      "GetAllCertificates" [] (by simp [h1, h2, h3])
    exact ⟨by rw [h.1], h.2⟩
  · intro req' h1 he
    have h1' : req'.TestUnit ≠ "" := by rw [he]; exact h1
    simp [Handlers.QueryCertificates, h1, h1', he]
  · intro req' h1 h2 h1' he
    have h2' : req'.Status ≠ "" := by rw [he]; exact h2
    simp [Handlers.QueryCertificates, h1, h1', h2, h2', he]
  · intro h1
    exact (Handlers.QueryCertificates_call { fc with contract := evaluateOnLedger stub } req
      "QueryCertificatesByTestUnit" [req.TestUnit] (by simp [h1])).2.1 _
        (by simp [evaluateOnLedger])
  · intro h1 h2
    exact (Handlers.QueryCertificates_call { fc with contract := evaluateOnLedger stub } req
      "QueryCertificatesByStatus" [req.Status] (by simp [h1, h2])).2.1 _
        (by simp [evaluateOnLedger])
  · intro h1 h2 h3
    exact (Handlers.QueryCertificates_call { fc with contract := evaluateOnLedger stub } req
      "QueryCertificatesByInspectionOrg" [req.InspectionOrg] (by simp [h1, h2, h3])).2.1 _
        (by simp [evaluateOnLedger])
  · intro h1 h2 h3
    have h := (Handlers.QueryCertificates_call
      { fc with contract := evaluateOnLedger stub } req
      "GetAllCertificates" [] (by simp [h1, h2, h3])).2.1 (stub.state.map Prod.snd)
        (by simp [evaluateOnLedger, Chaincode.GetAllCertificates_eq])
    refine ⟨h.1, h.2, ?_⟩
    intro k c hm
    rw [h.2]
    exact List.mem_map.mpr ⟨(k, c), hm, rfl⟩

/-- Witness for C14 on the three-certificate ledger: a request with test unit `LabA`
(and a status and an organisation, both ignored) makes the one by-test-unit call and gets
the two `LabA` certificates; status `issued` alone with an organisation makes the one
by-status call and gets the issued certificate; organisation `OrgX` alone makes the one
by-organisation call; no filter makes the one `GetAllCertificates` call and gets all. -/
theorem C14_query_dispatch_witness :
    ((Handlers.QueryCertificates scenarioClient
        (.ok ⟨"LabA", "issued", "OrgX"⟩)).fabricClient.evaluated
      = scenarioClient.evaluated ++ [("QueryCertificatesByTestUnit", ["LabA"])] ∧
     (Handlers.QueryCertificates scenarioClient (.ok ⟨"LabA", "issued", "OrgX"⟩)).certificates
      = [issued2, draftOrgY]) ∧
    ((Handlers.QueryCertificates scenarioClient
        (.ok ⟨"", "issued", "OrgX"⟩)).fabricClient.evaluated
      = scenarioClient.evaluated ++ [("QueryCertificatesByStatus", ["issued"])] ∧
     (Handlers.QueryCertificates scenarioClient (.ok ⟨"", "issued", "OrgX"⟩)).certificates
      = [issued2]) ∧
    ((Handlers.QueryCertificates scenarioClient
        (.ok ⟨"", "", "OrgX"⟩)).fabricClient.evaluated
      = scenarioClient.evaluated ++ [("QueryCertificatesByInspectionOrg", ["OrgX"])] ∧
     (Handlers.QueryCertificates scenarioClient (.ok ⟨"", "", "OrgX"⟩)).certificates
      = [issued2, draftLabB]) ∧
    ((Handlers.QueryCertificates scenarioClient (.ok ⟨"", "", ""⟩)).fabricClient.evaluated
      = scenarioClient.evaluated ++ [("GetAllCertificates", [])] ∧
     (Handlers.QueryCertificates scenarioClient (.ok ⟨"", "", ""⟩)).status = 200 ∧
     (Handlers.QueryCertificates scenarioClient (.ok ⟨"", "", ""⟩)).certificates
      = [issued2, draftOrgY, draftLabB]) :=
  ⟨⟨((C14_query_dispatch scenarioClient scenarioStub ⟨"LabA", "issued", "OrgX"⟩).2.1
      (by decide)).1, by decide⟩,
   ⟨((C14_query_dispatch scenarioClient scenarioStub ⟨"", "issued", "OrgX"⟩).2.2.1
      rfl (by decide)).1, by decide⟩,
   ⟨((C14_query_dispatch scenarioClient scenarioStub ⟨"", "", "OrgX"⟩).2.2.2.1
      rfl rfl (by decide)).1, by decide⟩,
   ⟨((C14_query_dispatch scenarioClient scenarioStub ⟨"", "", ""⟩).2.2.2.2.1
      rfl rfl rfl).1,
    ((C14_query_dispatch scenarioClient scenarioStub ⟨"", "", ""⟩).2.2.2.2.2.2.2.2.2.2
      rfl rfl rfl).1,
    ((C14_query_dispatch scenarioClient scenarioStub ⟨"", "", ""⟩).2.2.2.2.2.2.2.2.2.2
      rfl rfl rfl).2.1⟩⟩

/-- C15. The text that `generateCertificateHashFromCert` hashes does not determine the
content fields: `certAB` (certificate number `AB`, test unit `C`) and `certA`
(certificate number `A`, test unit `BC`) have the same creation time and test data and
different content fields, yet the same concatenated text and so the same digest. -/
theorem C15_hash_input_not_injective :
    certAB.CreatedAt = certA.CreatedAt ∧ certAB.TestData = certA.TestData ∧
    certAB.CertificateNo ≠ certA.CertificateNo ∧ certAB.TestUnit ≠ certA.TestUnit ∧
    Handlers.hashInputFromCert certAB = "ABC2025-03-01T10:00:00ZpH7.0000000.100000m1e1" ∧
    Handlers.hashInputFromCert certAB = Handlers.hashInputFromCert certA ∧
    Handlers.generateCertificateHashFromCert certAB
      = Handlers.generateCertificateHashFromCert certA :=
  ⟨by decide, by decide, by decide, by decide, by decide, by decide,
   congrArg sha256Hex (by decide)⟩
